import Mathlib

/-!
Verification of the multi-agent toolkit coordination core.

Shallow embedding of:
- `src/agents/agent_coordinator.py` (task graph and assignment engine),
- `src/quality/peer_review.py` (review aggregator),
- `src/tasks/autonomous_loop.py` (polling loop).

Python dictionaries are modelled as insertion-ordered association lists
(`Dict`), matching Python's guaranteed dict iteration order.  Wall-clock
timestamps (`datetime.now()` strings) are threaded through the operations as
an explicit `now : String` argument.  Python truthiness of optional strings
(`if task_id:`) is modelled by `truthyS` (a non-empty `some`).
-/

namespace Toolkit

/-- An insertion-ordered string-keyed map, the model of a Python `dict`. -/
abbrev Dict (α : Type) : Type := List (String × α)

/-- `d.get(k)` / `d[k]` lookup: first binding wins. -/
def dget {α : Type} : Dict α → String → Option α
  | [], _ => none
  | (k', v) :: rest, k => if k' = k then some v else dget rest k

/-- `d[k] = v`: update in place if the key exists (keeping its position, as a
Python dict does), otherwise append a new binding at the end. -/
def dset {α : Type} : Dict α → String → α → Dict α
  | [], k, v => [(k, v)]
  | (k', v') :: rest, k, v =>
    if k' = k then (k', v) :: rest else (k', v') :: dset rest k v

/-- In-place mutation `f` of the value stored at `k` (no-op if absent), the
model of statements like `self.tasks[dep_id].blocks.append(...)`. -/
def dmodify {α : Type} : Dict α → String → (α → α) → Dict α
  | [], _, _ => []
  | (k', v) :: rest, k, f =>
    if k' = k then (k', f v) :: rest else (k', v) :: dmodify rest k f

/-- `d.values()` in insertion order. -/
def dvalues {α : Type} (d : Dict α) : List α := d.map Prod.snd

/-- Python truthiness of an `Optional[str]`: `None` and `""` are falsy. -/
def truthyS : Option String → Bool
  | some s => s ≠ ""
  | none => false

/-! ## agent_coordinator.py -/

/-- `TaskStatus` enum. -/
inductive TaskStatus : Type
  | PENDING
  | ASSIGNED
  | IN_PROGRESS
  | REVIEW
  | COMPLETED
  | BLOCKED
deriving DecidableEq, Repr

/-- The `Agent` dataclass. -/
structure Agent : Type where
  name : String
  role : String
  capabilities : List String
  current_task : Option String
  tasks_completed : Nat
  last_active : String
deriving DecidableEq, Repr

/-- `Agent.is_available` property. -/
def agent_is_available (a : Agent) : Bool := a.current_task.isNone

/-- The `Task` dataclass. -/
structure Task : Type where
  id : String
  description : String
  required_capabilities : List String
  assigned_to : Option String
  status : TaskStatus
  created : String
  completed : String
  depends_on : List String
  blocks : List String
  thread : Option String
  result : Option String
deriving DecidableEq, Repr

/-- The `AgentCoordinator` state: agent registry, task table, id counter. -/
structure AgentCoordinator : Type where
  agents : Dict Agent
  tasks : Dict Task
  task_counter : Nat
deriving DecidableEq, Repr

/-- A fresh coordinator (`AgentCoordinator.__init__`). -/
def emptyCoordinator : AgentCoordinator := ⟨[], [], 0⟩

/-- The task id string `f"T{n}"`. -/
def tid (n : Nat) : String := "T" ++ Nat.repr n

/-- `register_agent`: build the agent record and (over)write it into the
registry.  `capabilities or []` maps `None` to the empty list. -/
def register_agent (c : AgentCoordinator) (name role : String)
    (capabilities : Option (List String)) (now : String) :
    AgentCoordinator × Agent :=
  let agent : Agent :=
    { name := name, role := role, capabilities := capabilities.getD [],
      current_task := none, tasks_completed := 0, last_active := now }
  (⟨dset c.agents name agent, c.tasks, c.task_counter⟩, agent)

/-- The inverse-link loop of `create_task`: for each dependency id in order,
if it exists in the task table, append the new task's id to its `blocks`. -/
def dep_link_fold (ts : Dict Task) (deps : List String) (new_id : String) :
    Dict Task :=
  deps.foldl
    (fun acc dep =>
      if (dget acc dep).isSome then
        dmodify acc dep (fun t => { t with blocks := t.blocks ++ [new_id] })
      else acc)
    ts

/-- `create_task`: allocate the next sequential id, insert the new PENDING
task, then update the `blocks` lists of already-existing dependencies.
Returns the new coordinator and the stored task record. -/
def create_task (c : AgentCoordinator) (description : String)
    (required_capabilities : List String) (depends_on : List String)
    (thread : Option String) (now : String) : AgentCoordinator × Task :=
  let counter' := c.task_counter + 1
  let task_id := tid counter'
  let task : Task :=
    { id := task_id, description := description,
      required_capabilities := required_capabilities, assigned_to := none,
      status := TaskStatus.PENDING, created := now, completed := "",
      depends_on := depends_on, blocks := [], thread := thread,
      result := none }
  let tasks1 := dset c.tasks task_id task
  let tasks2 := dep_link_fold tasks1 depends_on task_id
  (⟨c.agents, tasks2, counter'⟩, (dget tasks2 task_id).getD task)

/-- `self.tasks.get(dep_id, Task(id="")).status`: the status of a dependency,
with the dataclass default `PENDING` when the id is absent. -/
def status_of (ts : Dict Task) (dep_id : String) : TaskStatus :=
  match dget ts dep_id with
  | some t => t.status
  | none => TaskStatus.PENDING

/-- `_is_blocked`: true when any dependency's status is not COMPLETED
(an absent dependency id counts as not completed). -/
def is_blocked (c : AgentCoordinator) (task_id : String) : Bool :=
  match dget c.tasks task_id with
  | none => false
  | some t =>
    t.depends_on.any (fun dep => !decide (status_of c.tasks dep = TaskStatus.COMPLETED))

/-- Number of required capabilities the agent possesses
(`sum(1 for cap in required_capabilities if cap in agent.capabilities)`). -/
def match_count (required_capabilities caps : List String) : Nat :=
  (required_capabilities.filter (fun cap => caps.contains cap)).length

/-- The sort key `(-match_count, tasks_completed)` compared ascending:
`x` may stay before `y` iff its key is less than or equal. -/
def candidate_le (x y : Agent × Nat) : Bool :=
  decide (y.2 < x.2) || (decide (x.2 = y.2) && decide (x.1.tasks_completed ≤ y.1.tasks_completed))

/-- Stable insertion of `x` (a later element) into an already-sorted list:
`x` goes after every element whose key is less than or equal to its own. -/
def insertSorted {α : Type} (le : α → α → Bool) (x : α) : List α → List α
  | [] => [x]
  | y :: ys => if le y x then y :: insertSorted le x ys else x :: y :: ys

/-- A stable ascending sort (the semantics of Python's `list.sort(key=...)`). -/
def stableSort {α : Type} (le : α → α → Bool) (xs : List α) : List α :=
  xs.foldl (fun acc x => insertSorted le x acc) []

/-- The candidate list of `_find_best_agent`: available agents in registration
order, paired with their capability match count; with no required
capabilities every available agent scores 0, otherwise only agents with at
least one match are kept. -/
def candidate_list (c : AgentCoordinator) (required_capabilities : List String) :
    List (Agent × Nat) :=
  (dvalues c.agents).filterMap
    (fun a =>
      if !agent_is_available a then none
      else if required_capabilities.isEmpty then some (a, 0)
      else
        let mc := match_count required_capabilities a.capabilities
        if 0 < mc then some (a, mc) else none)

/-- The available agents in registration order
(`[a for a in self.agents.values() if a.is_available]`). -/
def available_agents (c : AgentCoordinator) : List Agent :=
  (dvalues c.agents).filter agent_is_available

/-- `_find_best_agent`: preferred agent if truthy, registered and available;
otherwise best-scoring candidate (stable sort by `(-match, tasks_completed)`);
otherwise the first available agent; otherwise none. -/
def find_best_agent (c : AgentCoordinator)
    (required_capabilities : List String) (prefer : Option String) :
    Option Agent :=
  let preferred : Option Agent :=
    match prefer with
    | some p =>
      if p ≠ "" then
        match dget c.agents p with
        | some a => if agent_is_available a then some a else none
        | none => none
      else none
    | none => none
  match preferred with
  | some a => some a
  | none =>
    let candidates := candidate_list c required_capabilities
    if candidates.isEmpty then (available_agents c).head?
    else ((stableSort candidate_le candidates).head?).map Prod.fst

/-- The task-resolution step of `assign_task` (the `if task_id is None and
description: ... elif task_id and task_id in self.tasks: ... else: return
None` chain, split by whether `task_id` was passed): with no task id and a
truthy description, create a new task; with a truthy task id that is in the
table, use it; otherwise resolution fails. -/
def assign_resolve (c : AgentCoordinator) (task_id : Option String)
    (description : Option String) (required_capabilities : List String)
    (now : String) : Option (AgentCoordinator × String) :=
  match task_id with
  | none =>
    if truthyS description then
      let ct := create_task c (description.getD "") required_capabilities [] none now
      some (ct.1, ct.2.id)
    else none
  | some t =>
    if t ≠ "" ∧ (dget c.tasks t).isSome then some (c, t) else none

/-- The tail of `assign_task` after resolution: if the task is blocked, mark
it BLOCKED and return none; otherwise select an agent, and on success record
the assignment on both the task and the agent. -/
def assign_finish (c1 : AgentCoordinator) (t : String)
    (required_capabilities : List String) (prefer_agent : Option String) :
    AgentCoordinator × Option (String × String) :=
  if is_blocked c1 t then
    (⟨c1.agents,
      dmodify c1.tasks t (fun tk => { tk with status := TaskStatus.BLOCKED }),
      c1.task_counter⟩, none)
  else
    match find_best_agent c1 required_capabilities prefer_agent with
    | none => (c1, none)
    | some ag =>
      (⟨dmodify c1.agents ag.name (fun a => { a with current_task := some t }),
        dmodify c1.tasks t
          (fun tk => { tk with assigned_to := some ag.name,
                               status := TaskStatus.ASSIGNED }),
        c1.task_counter⟩, some (ag.name, t))

/-- `assign_task`: resolve or create the task; if blocked, mark BLOCKED and
return none; otherwise assign the best-fit agent, or return none if there is
no agent.  Returns the new coordinator and `Optional[(agent_name, task_id)]`. -/
def assign_task (c : AgentCoordinator) (task_id : Option String)
    (description : Option String) (required_capabilities : List String)
    (prefer_agent : Option String) (now : String) :
    AgentCoordinator × Option (String × String) :=
  match assign_resolve c task_id description required_capabilities now with
  | none => (c, none)
  | some (c1, t) => assign_finish c1 t required_capabilities prefer_agent

/-- One step of `complete_task`'s unblocking loop: if the dependent id exists
and is no longer blocked, flip its status to PENDING. -/
def unblock_step (cc : AgentCoordinator) (blocked_id : String) :
    AgentCoordinator :=
  if (dget cc.tasks blocked_id).isSome ∧ ¬ (is_blocked cc blocked_id = true) then
    ⟨cc.agents,
     dmodify cc.tasks blocked_id (fun t => { t with status := TaskStatus.PENDING }),
     cc.task_counter⟩
  else cc

/-- `complete_task`: no-op on an unknown id; otherwise set COMPLETED with
timestamp and result, free the assigned agent (clear its current task,
increment its completed counter), then scan this task's `blocks` list and
flip any no-longer-blocked dependent to PENDING. -/
def complete_task (c : AgentCoordinator) (task_id : String)
    (result : String) (now : String) : AgentCoordinator :=
  match dget c.tasks task_id with
  | none => c
  | some task0 =>
    let tasks1 := dmodify c.tasks task_id
      (fun t => { t with status := TaskStatus.COMPLETED, completed := now,
                         result := some result })
    let agents1 :=
      match task0.assigned_to with
      | some aname =>
        if aname ≠ "" ∧ (dget c.agents aname).isSome then
          dmodify c.agents aname
            (fun a => { a with current_task := none,
                               tasks_completed := a.tasks_completed + 1 })
        else c.agents
      | none => c.agents
    task0.blocks.foldl unblock_step ⟨agents1, tasks1, c.task_counter⟩

/-- `get_available_tasks`: tasks whose status is PENDING and which are not
blocked (re-evaluated live). -/
def get_available_tasks (c : AgentCoordinator) : List Task :=
  (dvalues c.tasks).filter
    (fun t => decide (t.status = TaskStatus.PENDING) && !(is_blocked c t.id))

/-- One call into the coordinator's public mutating interface. -/
inductive CoordOp : Type
  | register (name role : String) (capabilities : Option (List String)) (now : String)
  | create (description : String) (required_capabilities : List String)
      (depends_on : List String) (thread : Option String) (now : String)
  | assign (task_id : Option String) (description : Option String)
      (required_capabilities : List String) (prefer_agent : Option String) (now : String)
  | complete (task_id : String) (result : String) (now : String)

/-- Apply one public operation to the coordinator. -/
def coord_step (c : AgentCoordinator) : CoordOp → AgentCoordinator
  | CoordOp.register name role caps now => (register_agent c name role caps now).1
  | CoordOp.create d req deps thr now => (create_task c d req deps thr now).1
  | CoordOp.assign t d req p now => (assign_task c t d req p now).1
  | CoordOp.complete t res now => complete_task c t res now

/-- Apply a sequence of public operations. -/
def coord_run (c : AgentCoordinator) (ops : List CoordOp) : AgentCoordinator :=
  ops.foldl coord_step c

/-! ## peer_review.py -/

/-- The `Verdict` enum. -/
inductive Verdict : Type
  | ACCEPT
  | REVISE
  | REJECT
  | ABSTAIN
deriving DecidableEq, Repr

/-- The `ReviewResult` dataclass.  The float `confidence` field is modelled
as a rational (no arithmetic on it is performed by the core). -/
structure ReviewResult : Type where
  criterion : String
  verdict : Verdict
  reasoning : String
  confidence : ℚ
deriving DecidableEq, Repr

/-- The `ReviewSummary` dataclass. -/
structure ReviewSummary : Type where
  results : List ReviewResult
  overall_verdict : Verdict
  summary : String
deriving DecidableEq, Repr

/-- The aggregation in `PeerReviewer.review`: REJECT if any criterion
rejected, else REVISE if any asked for revision, else ACCEPT. -/
def overall_of (results : List ReviewResult) : Verdict :=
  if results.any (fun r => decide (r.verdict = Verdict.REJECT)) then Verdict.REJECT
  else if results.any (fun r => decide (r.verdict = Verdict.REVISE)) then Verdict.REVISE
  else Verdict.ACCEPT

/-- The digest built by `PeerReviewer.review`. -/
def summary_of (results : List ReviewResult) : String :=
  let issues :=
    (results.filter
      (fun r => decide (r.verdict = Verdict.REJECT) || decide (r.verdict = Verdict.REVISE))).map
      (fun r => "[" ++ r.criterion ++ "] " ++ r.reasoning)
  if issues.isEmpty then "All criteria passed."
  else "Issues found:\n" ++ String.intercalate "\n" (issues.map (fun i => "- " ++ i))

/-- `PeerReviewer.review`: evaluate every criterion on the content and
context, then aggregate.  A criterion is its `evaluate` method, a function of
(content, optional context); the context dictionary type is abstract (`γ`). -/
def review {γ : Type} (criteria : List (String → Option γ → ReviewResult))
    (content : String) (context : Option γ) : ReviewSummary :=
  let results := criteria.map (fun cr => cr content context)
  { results := results, overall_verdict := overall_of results,
    summary := summary_of results }

/-! ## autonomous_loop.py -/

/-- The `Message` dataclass from `conversation_handler.py` (an external
collaborator; only its plain record shape is needed by the loop). -/
structure Message : Type where
  filename : String
  speaker : String
  timestamp : String
  content : String
deriving DecidableEq, Repr

/-- The `CycleResult` dataclass. -/
structure CycleResult : Type where
  cycle_number : Nat
  timestamp : String
  new_messages : List Message
  action_taken : Option String
  pr_url : Option String
  next_task : Option String
deriving DecidableEq, Repr

/-- The `LoopState` dataclass. -/
structure LoopState : Type where
  cycle_count : Nat
  last_seen : Dict String
  history : List CycleResult
  pending_tasks : List String
deriving DecidableEq, Repr

/-- A fresh `LoopState()`. -/
def emptyLoopState : LoopState := ⟨0, [], [], []⟩

/-- `LoopState.record_seen`: advance a thread's watermark if the filename
sorts later (Python `filename > current` on strings). -/
def record_seen (st : LoopState) (thread filename : String) : LoopState :=
  let current := (dget st.last_seen thread).getD ""
  if current < filename then
    { st with last_seen := dset st.last_seen thread filename }
  else st

/-- The `AutonomousLoop` configuration.  The conversation handler is an
external collaborator: its two fetch methods are modelled as fallible
functions (`Except` carries the exception's message), `act_fn` likewise; the
handler argument of `act_fn` lives in its closure.  `think_fn` is the pure
decision function (its declared contract: messages and state in, optional
task description out).  `now_fn` supplies the timestamp string of each cycle.
The optional `on_cycle` observer callback is omitted (it only reports). -/
structure AutonomousLoop : Type where
  threads : List String
  get_new_messages : String → String → Except String (List Message)
  read_thread : String → Nat → Except String (List Message)
  think_fn : List Message → LoopState → Option String
  act_fn : String → Except String (Option String)
  now_fn : Nat → String

/-- The per-thread body of `_check_new_messages`: fetch past the watermark
(or an initial window of 3 when there is none), tolerating a fetch failure
(logged and skipped); record each seen filename and append the new messages. -/
def check_thread_step (loop : AutonomousLoop) (acc : LoopState × List Message)
    (thread : String) : LoopState × List Message :=
  let last := (dget acc.1.last_seen thread).getD ""
  let fetched :=
    if last ≠ "" then loop.get_new_messages thread last
    else loop.read_thread thread 3
  match fetched with
  | Except.error _ => acc
  | Except.ok new =>
    (new.foldl (fun s m => record_seen s thread m.filename) acc.1,
     acc.2 ++ new)

/-- `_check_new_messages`: poll each monitored thread in order, collecting
all new messages. -/
def check_new_messages (loop : AutonomousLoop) (st0 : LoopState) :
    LoopState × List Message :=
  loop.threads.foldl (check_thread_step loop) (st0, [])

/-- The think step plus the deferred-queue fallback of `_run_cycle`: invoke
`think_fn` only when there are new messages or pending tasks; if no truthy
task came out and the deferred queue is non-empty, pop its head (FIFO). -/
def select_task (loop : AutonomousLoop) (new_messages : List Message)
    (st : LoopState) : Option String × LoopState :=
  let task0 :=
    if ¬ new_messages.isEmpty = true ∨ ¬ st.pending_tasks.isEmpty = true then
      loop.think_fn new_messages st
    else none
  if ¬ truthyS task0 = true ∧ ¬ st.pending_tasks.isEmpty = true then
    (st.pending_tasks.head?, { st with pending_tasks := st.pending_tasks.tail })
  else (task0, st)

/-- The failure outcome string `f"FAILED: {task} ({e})"`. -/
def failed_msg (task e : String) : String :=
  "FAILED: " ++ task ++ " (" ++ e ++ ")"

/-- `_run_cycle`: bump the cycle counter, monitor, think, act (catching any
action failure as a synthetic FAILED outcome), and append the cycle record to
history.  Returns the new state and the record. -/
def run_cycle (loop : AutonomousLoop) (st0 : LoopState) :
    LoopState × CycleResult :=
  let st1 : LoopState := { st0 with cycle_count := st0.cycle_count + 1 }
  let timestamp := loop.now_fn st1.cycle_count
  let cm := check_new_messages loop st1
  let st2 := cm.1
  let new_messages := cm.2
  let sel := select_task loop new_messages st2
  let task := sel.1
  let st3 := sel.2
  let acted : Option String × Option String :=
    match task with
    | some t =>
      if t ≠ "" then
        match loop.act_fn t with
        | Except.ok url => (url, some t)
        | Except.error e => (none, some (failed_msg t e))
      else (none, none)
    | none => (none, none)
  let result : CycleResult :=
    { cycle_number := st3.cycle_count, timestamp := timestamp,
      new_messages := new_messages, action_taken := acted.2,
      pr_url := acted.1, next_task := st3.pending_tasks.head? }
  ({ st3 with history := st3.history ++ [result] }, result)

/-- The body of `run`, with the remaining cycle budget as fuel: run a cycle,
reset or bump the idle counter according to whether an action was taken, stop
when the idle-stop threshold is configured and reached, otherwise continue.
(The inter-cycle sleep and the KeyboardInterrupt handler are external-world
effects with no bearing on the recorded state; `_run_cycle` is total here, so
the outer defensive `except` is unreachable.) -/
def run_from (loop : AutonomousLoop) (st : LoopState) (idle_count : Nat) :
    Nat → Nat → LoopState
  | 0, _ => st
  | Nat.succ fuel, stop_when_idle =>
    let step := run_cycle loop st
    let idle' := if truthyS step.2.action_taken then 0 else idle_count + 1
    if stop_when_idle ≠ 0 ∧ stop_when_idle ≤ idle' then step.1
    else run_from loop step.1 idle' fuel stop_when_idle

/-- `AutonomousLoop.run(max_cycles, stop_when_idle)` from a given state. -/
def loop_run (loop : AutonomousLoop) (st : LoopState)
    (max_cycles stop_when_idle : Nat) : LoopState :=
  run_from loop st 0 max_cycles stop_when_idle

/-- The task selected by a cycle starting from `st0` (the value that reaches
the act step of `_run_cycle`). -/
def cycle_task (loop : AutonomousLoop) (st0 : LoopState) : Option String :=
  let st1 : LoopState := { st0 with cycle_count := st0.cycle_count + 1 }
  let cm := check_new_messages loop st1
  (select_task loop cm.2 cm.1).1

/-! ## Spec-side selection policies (for comparison with the source). -/

/-- Modelled from the spec's words for the claimed empty-capabilities policy:
"selects the first available agent in registration order". -/
def first_available_policy (c : AgentCoordinator) : Option Agent :=
  (available_agents c).head?

/-- The least-loaded policy the source actually applies when no capabilities
are required: stable sort of the available agents by ascending completed-task
count (ties keep registration order), then take the first. -/
def least_loaded_policy (c : AgentCoordinator) : Option Agent :=
  (stableSort (fun a b => decide (a.tasks_completed ≤ b.tasks_completed))
    (available_agents c)).head?

/-! ## Decimal-digit valuation, used to prove task-id freshness. -/

/-- The numeric value of a decimal digit character (10 for non-digits). -/
def charVal (c : Char) : Nat :=
  if c = '0' then 0 else if c = '1' then 1 else if c = '2' then 2 else
  if c = '3' then 3 else if c = '4' then 4 else if c = '5' then 5 else
  if c = '6' then 6 else if c = '7' then 7 else if c = '8' then 8 else
  if c = '9' then 9 else 10

/-- Horner evaluation of a decimal digit string, starting from `a`. -/
def valFold (a : Nat) (l : List Char) : Nat :=
  l.foldl (fun acc c => 10 * acc + charVal c) a

/-! # Theorems -/

/-! ## Association-list (Python dict) laws -/

theorem dget_dset_self {α : Type} (d : Dict α) (k : String) (v : α) :
    dget (dset d k v) k = some v := by
  induction d with
  | nil => simp [dget, dset]
  | cons hd tl ih =>
    obtain ⟨k', v'⟩ := hd
    by_cases h : k' = k <;> simp [dget, dset, h, ih]

theorem dget_dset_ne {α : Type} (d : Dict α) (k k' : String) (v : α)
    (h : k' ≠ k) : dget (dset d k v) k' = dget d k' := by
  induction d with
  | nil => simp [dget, dset, Ne.symm h]
  | cons hd tl ih =>
    obtain ⟨k0, v0⟩ := hd
    by_cases h0 : k0 = k
    · have hne : k0 ≠ k' := by rw [h0]; exact Ne.symm h
      simp only [dset, if_pos h0, dget, if_neg hne]
    · simp only [dset, if_neg h0]
      by_cases h1 : k0 = k' <;> simp [dget, h1, ih]

theorem dget_dmodify_self {α : Type} (d : Dict α) (k : String) (f : α → α) :
    dget (dmodify d k f) k = (dget d k).map f := by
  induction d with
  | nil => simp [dget, dmodify]
  | cons hd tl ih =>
    obtain ⟨k', v'⟩ := hd
    by_cases h : k' = k <;> simp [dget, dmodify, h, ih]

theorem dget_dmodify_ne {α : Type} (d : Dict α) (k k' : String) (f : α → α)
    (h : k' ≠ k) : dget (dmodify d k f) k' = dget d k' := by
  induction d with
  | nil => simp [dget, dmodify]
  | cons hd tl ih =>
    obtain ⟨k0, v0⟩ := hd
    by_cases h0 : k0 = k
    · have hne : k0 ≠ k' := by rw [h0]; exact Ne.symm h
      simp only [dmodify, if_pos h0, dget, if_neg hne]
    · simp only [dmodify, if_neg h0]
      by_cases h1 : k0 = k' <;> simp [dget, h1, ih]

/-! ## Task-id freshness: `tid` is injective and never empty -/

theorem charVal_digitChar (m : Nat) (h : m < 10) :
    charVal (Nat.digitChar m) = m := by
  interval_cases m <;> rfl

theorem valFold_cons (a : Nat) (c : Char) (l : List Char) :
    valFold a (c :: l) = valFold (10 * a + charVal c) l := rfl

theorem valFold_toDigitsCore :
    ∀ (fuel n : Nat) (ds : List Char), n < fuel →
      valFold 0 (Nat.toDigitsCore 10 fuel n ds) = valFold n ds := by
  intro fuel
  induction fuel with
  | zero => intro n ds h; omega
  | succ fuel ih =>
    intro n ds h
    by_cases h0 : n / 10 = 0
    · have hn : n < 10 := (Nat.div_eq_zero_iff (by norm_num)).mp h0
      simp only [Nat.toDigitsCore, h0, if_true]
      rw [valFold_cons, charVal_digitChar _ (Nat.mod_lt _ (by norm_num))]
      have : n % 10 = n := Nat.mod_eq_of_lt hn
      simp [this]
    · have hpos : 0 < n := by
        rcases Nat.eq_zero_or_pos n with h | h
        · exact absurd (by simp [h]) h0
        · exact h
      have hlt : n / 10 < fuel := by
        have := Nat.div_lt_self hpos (by norm_num : 1 < 10)
        omega
      simp only [Nat.toDigitsCore, h0, if_false]
      rw [ih (n / 10) (Nat.digitChar (n % 10) :: ds) hlt, valFold_cons,
        charVal_digitChar _ (Nat.mod_lt _ (by norm_num))]
      have : 10 * (n / 10) + n % 10 = n := by
        have := Nat.div_add_mod n 10
        omega
      rw [this]

theorem valFold_toDigits (n : Nat) : valFold 0 (Nat.toDigits 10 n) = n := by
  have := valFold_toDigitsCore (n + 1) n [] (Nat.lt_succ_self n)
  simpa [Nat.toDigits, valFold] using this

theorem nat_repr_inj {n m : Nat} (h : Nat.repr n = Nat.repr m) : n = m := by
  have h' : Nat.toDigits 10 n = Nat.toDigits 10 m := by
    have hd := congrArg String.data h
    simpa [Nat.repr, List.asString] using hd
  have hn := valFold_toDigits n
  have hm := valFold_toDigits m
  rw [← hn, ← hm, h']

theorem string_data_inj {s t : String} (h : s.data = t.data) : s = t := by
  cases s with
  | mk ds =>
    cases t with
    | mk dt =>
      simp only at h
      rw [h]

theorem tid_inj {n m : Nat} (h : tid n = tid m) : n = m := by
  apply nat_repr_inj
  have hd := congrArg String.data h
  simp only [tid, String.data_append] at hd
  exact string_data_inj (List.append_cancel_left hd)

theorem tid_ne_of_ne {n m : Nat} (h : n ≠ m) : tid n ≠ tid m :=
  fun he => h (tid_inj he)

theorem tid_ne_empty (n : Nat) : tid n ≠ "" := by
  intro h
  have := congrArg String.length h
  simp only [tid, String.length_append] at this
  have h1 : ("T" : String).length = 1 := rfl
  have h2 : ("" : String).length = 0 := rfl
  omega

/-! ## The inverse-link loop of `create_task` -/

theorem dep_link_fold_get (deps : List String) (ts : Dict Task)
    (nid k : String) :
    dget (dep_link_fold ts deps nid) k =
      (dget ts k).map
        (fun t => { t with blocks := t.blocks ++ List.replicate (deps.count k) nid }) := by
  induction deps generalizing ts with
  | nil =>
    simp only [dep_link_fold, List.foldl_nil, List.count_nil, List.replicate_zero,
      List.append_nil]
    cases dget ts k <;> simp
  | cons dep rest ih =>
    have hstep :
        dep_link_fold ts (dep :: rest) nid =
          dep_link_fold
            (if (dget ts dep).isSome then
              dmodify ts dep (fun t => { t with blocks := t.blocks ++ [nid] })
            else ts) rest nid := by
      simp only [dep_link_fold, List.foldl_cons]
    rw [hstep, ih]
    by_cases hdk : dep = k
    · subst hdk
      cases hts : dget ts dep with
      | none =>
        simp only [hts, Option.isSome_none, Bool.false_eq_true, if_false, hts,
          Option.map_none']
      | some t =>
        simp only [hts, Option.isSome_some, if_true, dget_dmodify_self, hts,
          Option.map_some']
        have hc : (dep :: rest).count dep = rest.count dep + 1 := by
          simp [List.count_cons]
        rw [hc, List.replicate_succ, ← List.singleton_append, List.append_assoc]
        simp
    · have hget :
          dget (if (dget ts dep).isSome then
            dmodify ts dep (fun t => { t with blocks := t.blocks ++ [nid] })
          else ts) k = dget ts k := by
        cases hs : (dget ts dep).isSome
        · simp [hs]
        · simp [hs, dget_dmodify_ne ts dep k _ (Ne.symm hdk)]
      rw [hget]
      have hc : (dep :: rest).count k = rest.count k := by
        simp [List.count_cons, hdk]
      rw [hc]

/-! ## The unblocking loop of `complete_task` -/

theorem unblock_step_agents (cc : AgentCoordinator) (b : String) :
    (unblock_step cc b).agents = cc.agents := by
  unfold unblock_step
  split <;> rfl

theorem unblock_step_counter (cc : AgentCoordinator) (b : String) :
    (unblock_step cc b).task_counter = cc.task_counter := by
  unfold unblock_step
  split <;> rfl

theorem unblock_foldl_agents (bs : List String) (cc : AgentCoordinator) :
    (bs.foldl unblock_step cc).agents = cc.agents := by
  induction bs generalizing cc with
  | nil => rfl
  | cons b rest ih =>
    rw [List.foldl_cons, ih, unblock_step_agents]

theorem unblock_foldl_counter (bs : List String) (cc : AgentCoordinator) :
    (bs.foldl unblock_step cc).task_counter = cc.task_counter := by
  induction bs generalizing cc with
  | nil => rfl
  | cons b rest ih =>
    rw [List.foldl_cons, ih, unblock_step_counter]

theorem unblock_step_get_ne (cc : AgentCoordinator) (b k : String)
    (h : k ≠ b) : dget (unblock_step cc b).tasks k = dget cc.tasks k := by
  unfold unblock_step
  split
  · exact dget_dmodify_ne _ _ _ _ h
  · rfl

theorem unblock_foldl_get_notmem (bs : List String) (cc : AgentCoordinator)
    (k : String) (h : k ∉ bs) :
    dget (bs.foldl unblock_step cc).tasks k = dget cc.tasks k := by
  induction bs generalizing cc with
  | nil => rfl
  | cons b rest ih =>
    rw [List.foldl_cons, ih _ (fun hm => h (List.mem_cons_of_mem b hm)),
      unblock_step_get_ne cc b k (fun he => h (he ▸ List.mem_cons_self b rest))]

theorem unblock_foldl_get (bs : List String) (cc : AgentCoordinator)
    (k : String) :
    dget (bs.foldl unblock_step cc).tasks k = dget cc.tasks k ∨
    dget (bs.foldl unblock_step cc).tasks k =
      (dget cc.tasks k).map (fun t => { t with status := TaskStatus.PENDING }) := by
  induction bs generalizing cc with
  | nil => exact Or.inl rfl
  | cons b rest ih =>
    rw [List.foldl_cons]
    have hstep :
        dget (unblock_step cc b).tasks k = dget cc.tasks k ∨
        dget (unblock_step cc b).tasks k =
          (dget cc.tasks k).map (fun t => { t with status := TaskStatus.PENDING }) := by
      by_cases hk : k = b
      · subst hk
        unfold unblock_step
        split
        · exact Or.inr (dget_dmodify_self _ _ _)
        · exact Or.inl rfl
      · exact Or.inl (unblock_step_get_ne cc b k hk)
    rcases ih (unblock_step cc b) with h1 | h1 <;> rcases hstep with h2 | h2
    · exact Or.inl (h1.trans h2)
    · exact Or.inr (h1.trans h2)
    · exact Or.inr (h1.trans (congrArg _ h2))
    · refine Or.inr ((h1.trans (congrArg _ h2)).trans ?_)
      rw [Option.map_map]
      rfl

/-! ## The candidate list of `_find_best_agent` -/

theorem candidate_list_nil_caps (c : AgentCoordinator) :
    candidate_list c [] = (available_agents c).map (fun a => (a, 0)) := by
  unfold candidate_list available_agents
  generalize dvalues c.agents = xs
  induction xs with
  | nil => rfl
  | cons a rest ih =>
    cases ha : agent_is_available a
    · simpa [List.filterMap_cons, List.filter_cons, ha] using ih
    · simpa [List.filterMap_cons, List.filter_cons, ha] using ih

theorem candidate_list_no_match (c : AgentCoordinator)
    (req : List String) (hreq : req ≠ [])
    (h : ∀ a ∈ available_agents c, match_count req a.capabilities = 0) :
    candidate_list c req = [] := by
  unfold candidate_list
  unfold available_agents at h
  revert h
  generalize dvalues c.agents = xs
  intro h
  have hne : req.isEmpty = false := by
    cases req
    · exact absurd rfl hreq
    · rfl
  induction xs with
  | nil => rfl
  | cons a rest ih =>
    cases ha : agent_is_available a
    · have hrest : ∀ b ∈ List.filter agent_is_available rest,
          match_count req b.capabilities = 0 := by
        intro b hb
        exact h b (by simp [List.filter_cons, ha, hb])
      simpa [List.filterMap_cons, ha, hne] using ih hrest
    · have hmem : a ∈ List.filter agent_is_available (a :: rest) := by
        simp [List.filter_cons, ha]
      have hm := h a hmem
      have hrest : ∀ b ∈ List.filter agent_is_available rest,
          match_count req b.capabilities = 0 := by
        intro b hb
        exact h b (by simp [List.filter_cons, ha, hb])
      simpa [List.filterMap_cons, ha, hne, hm] using ih hrest

theorem insertSorted_map_zero (x : Agent) (ys : List Agent) :
    insertSorted candidate_le (x, 0) (ys.map (fun a => (a, 0))) =
      (insertSorted (fun a b => decide (a.tasks_completed ≤ b.tasks_completed)) x ys).map
        (fun a => (a, 0)) := by
  induction ys with
  | nil => rfl
  | cons y rest ih =>
    have hle : candidate_le (y, 0) (x, 0) =
        decide (y.tasks_completed ≤ x.tasks_completed) := by
      simp [candidate_le]
    simp only [List.map_cons, insertSorted, hle]
    by_cases h : y.tasks_completed ≤ x.tasks_completed
    · simp [h, ih]
    · simp [h]

theorem stableSort_map_zero (ys : List Agent) :
    stableSort candidate_le (ys.map (fun a => (a, 0))) =
      (stableSort (fun a b => decide (a.tasks_completed ≤ b.tasks_completed)) ys).map
        (fun a => (a, 0)) := by
  unfold stableSort
  have hgen : ∀ (xs : List Agent) (acc : List Agent),
      (xs.map (fun a => (a, 0))).foldl
          (fun ac x => insertSorted candidate_le x ac) (acc.map (fun a => (a, 0))) =
        (xs.foldl
          (fun ac x =>
            insertSorted (fun a b => decide (a.tasks_completed ≤ b.tasks_completed)) x ac)
          acc).map (fun a => (a, 0)) := by
    intro xs
    induction xs with
    | nil => intro acc; rfl
    | cons x rest ih =>
      intro acc
      simp only [List.map_cons, List.foldl_cons, insertSorted_map_zero]
      exact ih _
  have := hgen ys []
  simpa using this

/-! ## Review aggregation -/

theorem any_filter_non_abstain (rs : List ReviewResult) (v : Verdict)
    (hv : v ≠ Verdict.ABSTAIN) :
    (rs.filter (fun r => decide (r.verdict ≠ Verdict.ABSTAIN))).any
        (fun r => decide (r.verdict = v)) =
      rs.any (fun r => decide (r.verdict = v)) := by
  cases h : rs.any (fun r => decide (r.verdict = v))
  · rw [List.any_eq_false] at h ⊢
    intro r hr
    exact h r (List.mem_of_mem_filter hr)
  · rw [List.any_eq_true] at h ⊢
    obtain ⟨r, hr, hrv⟩ := h
    refine ⟨r, List.mem_filter.mpr ⟨hr, ?_⟩, hrv⟩
    simp only [decide_eq_true_eq] at hrv ⊢
    rw [hrv]
    exact hv

theorem overall_of_filter_abstain (rs : List ReviewResult) :
    overall_of (rs.filter (fun r => decide (r.verdict ≠ Verdict.ABSTAIN))) =
      overall_of rs := by
  unfold overall_of
  rw [any_filter_non_abstain rs Verdict.REJECT (by simp),
    any_filter_non_abstain rs Verdict.REVISE (by simp)]

/-- Claim C2: for every content string, context and list of criteria, the
overall verdict of `review` is REJECT iff some criterion's result is REJECT;
otherwise REVISE iff some result is REVISE; otherwise ACCEPT; and ABSTAIN
results never change the aggregate (filtering them out gives the same
overall verdict). -/
theorem claim_C2 {γ : Type}
    (criteria : List (String → Option γ → ReviewResult))
    (content : String) (context : Option γ) :
    ((review criteria content context).overall_verdict = Verdict.REJECT ↔
      ∃ r ∈ (review criteria content context).results, r.verdict = Verdict.REJECT) ∧
    ((review criteria content context).overall_verdict = Verdict.REVISE ↔
      ((¬ ∃ r ∈ (review criteria content context).results, r.verdict = Verdict.REJECT) ∧
        ∃ r ∈ (review criteria content context).results, r.verdict = Verdict.REVISE)) ∧
    ((review criteria content context).overall_verdict = Verdict.ACCEPT ↔
      ((¬ ∃ r ∈ (review criteria content context).results, r.verdict = Verdict.REJECT) ∧
        ¬ ∃ r ∈ (review criteria content context).results, r.verdict = Verdict.REVISE)) ∧
    (review criteria content context).overall_verdict =
      overall_of (((review criteria content context).results).filter
        (fun r => decide (r.verdict ≠ Verdict.ABSTAIN))) := by
  have hres : (review criteria content context).results =
      criteria.map (fun cr => cr content context) := rfl
  have hov : (review criteria content context).overall_verdict =
      overall_of ((review criteria content context).results) := rfl
  rw [hov, overall_of_filter_abstain]
  generalize (review criteria content context).results = rs at *
  unfold overall_of
  by_cases h1 : rs.any (fun r => decide (r.verdict = Verdict.REJECT)) = true
  · have he1 : ∃ r ∈ rs, r.verdict = Verdict.REJECT := by
      simpa [List.any_eq_true] using h1
    simp [h1, he1]
  · have he1 : ¬ ∃ r ∈ rs, r.verdict = Verdict.REJECT := by
      intro he
      exact h1 (by simpa [List.any_eq_true] using he)
    by_cases h2 : rs.any (fun r => decide (r.verdict = Verdict.REVISE)) = true
    · have he2 : ∃ r ∈ rs, r.verdict = Verdict.REVISE := by
        simpa [List.any_eq_true] using h2
      simp [h1, h2, he1, he2]
    · have he2 : ¬ ∃ r ∈ rs, r.verdict = Verdict.REVISE := by
        intro he
        exact h2 (by simpa [List.any_eq_true] using he)
      simp [h1, h2, he1, he2]

/-! ## Shapes of `assign_task` -/

theorem assign_task_eq_finish (c : AgentCoordinator) (task_id desc : Option String)
    (req : List String) (prefer : Option String) (now : String)
    (c1 : AgentCoordinator) (t : String)
    (hres : assign_resolve c task_id desc req now = some (c1, t)) :
    assign_task c task_id desc req prefer now = assign_finish c1 t req prefer := by
  unfold assign_task
  rw [hres]

theorem assign_task_eq_unresolved (c : AgentCoordinator)
    (task_id desc : Option String) (req : List String) (prefer : Option String)
    (now : String) (hres : assign_resolve c task_id desc req now = none) :
    assign_task c task_id desc req prefer now = (c, none) := by
  unfold assign_task
  rw [hres]

theorem assign_resolve_existing (c : AgentCoordinator) (t0 : String)
    (desc : Option String) (req : List String) (now : String)
    (htne : t0 ≠ "") (hsome : (dget c.tasks t0).isSome = true) :
    assign_resolve c (some t0) desc req now = some (c, t0) := by
  simp only [assign_resolve]
  rw [if_pos ⟨htne, hsome⟩]

theorem assign_task_blocked (c : AgentCoordinator) (t0 : String) (tk : Task)
    (desc : Option String) (req : List String) (prefer : Option String)
    (now : String) (ht : dget c.tasks t0 = some tk) (htne : t0 ≠ "")
    (hb : is_blocked c t0 = true) :
    assign_task c (some t0) desc req prefer now =
      (⟨c.agents,
        dmodify c.tasks t0 (fun x => { x with status := TaskStatus.BLOCKED }),
        c.task_counter⟩, none) := by
  rw [assign_task_eq_finish c (some t0) desc req prefer now c t0
    (assign_resolve_existing c t0 desc req now htne (by simp [ht]))]
  unfold assign_finish
  rw [if_pos hb]

theorem assign_task_success (c : AgentCoordinator) (t0 : String) (tk : Task)
    (ag : Agent) (desc : Option String) (req : List String)
    (prefer : Option String) (now : String)
    (ht : dget c.tasks t0 = some tk) (htne : t0 ≠ "")
    (hb : is_blocked c t0 = false)
    (hf : find_best_agent c req prefer = some ag) :
    assign_task c (some t0) desc req prefer now =
      (⟨dmodify c.agents ag.name (fun a => { a with current_task := some t0 }),
        dmodify c.tasks t0
          (fun x => { x with assigned_to := some ag.name,
                             status := TaskStatus.ASSIGNED }),
        c.task_counter⟩, some (ag.name, t0)) := by
  rw [assign_task_eq_finish c (some t0) desc req prefer now c t0
    (assign_resolve_existing c t0 desc req now htne (by simp [ht]))]
  unfold assign_finish
  rw [if_neg (by simp [hb]), hf]

theorem find_best_agent_prefer (c : AgentCoordinator) (req : List String)
    (p : String) (ag : Agent) (hp : p ≠ "") (hag : dget c.agents p = some ag)
    (havail : ag.current_task = none) :
    find_best_agent c req (some p) = some ag := by
  unfold find_best_agent
  have hav : agent_is_available ag = true := by
    simp [agent_is_available, havail]
  simp only [if_pos hp, hag, hav, if_true]

/-- Claim C9: a dependency id that refers to no task in the table counts as
an incomplete dependency — `_is_blocked` is true, `assign_task` marks the
task BLOCKED and returns none, and `get_available_tasks` never lists a task
with that id, as long as the id is absent. -/
theorem claim_C9 (c : AgentCoordinator) (task_id : String) (t : Task)
    (dep : String) (desc : Option String) (req : List String)
    (prefer : Option String) (now : String)
    (htne : task_id ≠ "")
    (ht : dget c.tasks task_id = some t)
    (hdep : dep ∈ t.depends_on)
    (hmiss : dget c.tasks dep = none) :
    is_blocked c task_id = true ∧
    (assign_task c (some task_id) desc req prefer now).2 = none ∧
    (dget (assign_task c (some task_id) desc req prefer now).1.tasks task_id).map
        Task.status = some TaskStatus.BLOCKED ∧
    ∀ t' ∈ get_available_tasks c, t'.id ≠ task_id := by
  have hb : is_blocked c task_id = true := by
    unfold is_blocked
    rw [ht, List.any_eq_true]
    refine ⟨dep, hdep, ?_⟩
    simp [status_of, hmiss]
  have hasn := assign_task_blocked c task_id t desc req prefer now ht htne hb
  refine ⟨hb, ?_, ?_, ?_⟩
  · rw [hasn]
  · rw [hasn]
    simp [dget_dmodify_self, ht]
  · intro t' ht' heq
    unfold get_available_tasks at ht'
    have := List.of_mem_filter ht'
    rw [heq] at this
    simp [hb] at this

/-- Claim C10: `complete_task` is not idempotent on the agent counter —
re-completing an already-COMPLETED task whose `assigned_to` names a
registered agent increments that agent's `tasks_completed` again (the task's
assignment reference was never cleared), clears the agent's current task,
and overwrites the task's completion timestamp and result. -/
theorem claim_C10 (c : AgentCoordinator) (task_id : String) (t : Task)
    (aname : String) (ag : Agent) (res now : String)
    (ht : dget c.tasks task_id = some t)
    (hst : t.status = TaskStatus.COMPLETED)
    (ha : t.assigned_to = some aname) (hane : aname ≠ "")
    (hag : dget c.agents aname = some ag) :
    (dget (complete_task c task_id res now).agents aname).map Agent.tasks_completed
        = some (ag.tasks_completed + 1) ∧
    (dget (complete_task c task_id res now).agents aname).map Agent.current_task
        = some none ∧
    (dget (complete_task c task_id res now).tasks task_id).map Task.completed
        = some now ∧
    (dget (complete_task c task_id res now).tasks task_id).map Task.result
        = some (some res) ∧
    (dget (complete_task c task_id res now).tasks task_id).map Task.assigned_to
        = some (some aname) := by
  have hcomp : complete_task c task_id res now =
      t.blocks.foldl unblock_step
        ⟨dmodify c.agents aname
            (fun a => { a with current_task := none,
                               tasks_completed := a.tasks_completed + 1 }),
          dmodify c.tasks task_id
            (fun x => { x with status := TaskStatus.COMPLETED, completed := now,
                               result := some res }),
          c.task_counter⟩ := by
    unfold complete_task
    rw [ht]
    simp only [ha]
    have hcond : aname ≠ "" ∧ (dget c.agents aname).isSome = true :=
      ⟨hane, by simp [hag]⟩
    rw [if_pos hcond]
  rw [hcomp]
  refine ⟨?_, ?_, ?_⟩
  · rw [unblock_foldl_agents, dget_dmodify_self, hag]
    rfl
  · rw [unblock_foldl_agents, dget_dmodify_self, hag]
    rfl
  · have htt := unblock_foldl_get t.blocks
      ⟨dmodify c.agents aname
          (fun a => { a with current_task := none,
                             tasks_completed := a.tasks_completed + 1 }),
        dmodify c.tasks task_id
          (fun x => { x with status := TaskStatus.COMPLETED, completed := now,
                             result := some res }),
        c.task_counter⟩ task_id
    rcases htt with htt | htt <;>
      rw [htt] <;> simp [dget_dmodify_self, ht, ha]

/-- Claim C8 (counterexample): an agent registered under the empty name is
"a registered agent whose current_task is None", yet naming it as
`prefer_agent` does not select it — Python's truthiness check `if prefer`
skips the preferred-agent branch for the empty string, and scoring selects
agent "b" instead. -/
theorem claim_C8_counterexample :
    ((dget (create_task ((register_agent ((register_agent emptyCoordinator
        "b" "r" none "").1) "" "r" none "").1) "x" [] [] none "").1.agents "").map
        Agent.current_task = some none) ∧
    (assign_task (create_task ((register_agent ((register_agent emptyCoordinator
        "b" "r" none "").1) "" "r" none "").1) "x" [] [] none "").1
        (some "T1") none [] (some "") "").2 = some ("b", "T1") ∧
    ("b" : String) ≠ "" := by
  refine ⟨by decide, by decide, by decide⟩

/-- Claim C8 (amended): for every call to `assign_task` that resolves an
existing, non-blocked task and names a non-empty `prefer_agent` that is
registered and whose `current_task` is None, that agent is selected and
assigned — regardless of the required capabilities, of other agents'
capability matches, and of completed-task counts. -/
theorem claim_C8_amended (c : AgentCoordinator) (task_id : String) (t : Task)
    (p : String) (ag : Agent) (desc : Option String) (req : List String)
    (now : String)
    (htne : task_id ≠ "") (ht : dget c.tasks task_id = some t)
    (hnb : is_blocked c task_id = false)
    (hp : p ≠ "") (hag : dget c.agents p = some ag) (hname : ag.name = p)
    (havail : ag.current_task = none) :
    (assign_task c (some task_id) desc req (some p) now).2 = some (p, task_id) ∧
    (dget (assign_task c (some task_id) desc req (some p) now).1.tasks task_id).map
        Task.status = some TaskStatus.ASSIGNED ∧
    (dget (assign_task c (some task_id) desc req (some p) now).1.tasks task_id).map
        Task.assigned_to = some (some p) ∧
    (dget (assign_task c (some task_id) desc req (some p) now).1.agents p).map
        Agent.current_task = some (some task_id) := by
  have hf : find_best_agent c req (some p) = some ag :=
    find_best_agent_prefer c req p ag hp hag havail
  have hs := assign_task_success c task_id t ag desc req (some p) now ht htne hnb hf
  rw [hs]
  refine ⟨by rw [hname], ?_, ?_, ?_⟩
  · simp [dget_dmodify_self, ht]
  · simp [dget_dmodify_self, ht, hname]
  · rw [hname]
    simp [dget_dmodify_self, hag]

/-- Claim C8 (witness): concrete instance of the amended claim — one
registered agent "a" with no capabilities, preferred for a task requiring
"cap", is selected anyway. -/
theorem claim_C8_witness :
    (assign_task (create_task ((register_agent emptyCoordinator "a" "r" none
        "").1) "t" ["cap"] [] none "").1 (some "T1") none ["cap"] (some "a")
        "").2 = some ("a", "T1") ∧
    (dget (assign_task (create_task ((register_agent emptyCoordinator "a" "r"
        none "").1) "t" ["cap"] [] none "").1 (some "T1") none ["cap"]
        (some "a") "").1.tasks "T1").map Task.status = some TaskStatus.ASSIGNED ∧
    (dget (assign_task (create_task ((register_agent emptyCoordinator "a" "r"
        none "").1) "t" ["cap"] [] none "").1 (some "T1") none ["cap"]
        (some "a") "").1.tasks "T1").map Task.assigned_to = some (some "a") ∧
    (dget (assign_task (create_task ((register_agent emptyCoordinator "a" "r"
        none "").1) "t" ["cap"] [] none "").1 (some "T1") none ["cap"]
        (some "a") "").1.agents "a").map Agent.current_task =
      some (some "T1") :=
  claim_C8_amended
    (create_task ((register_agent emptyCoordinator "a" "r" none "").1) "t"
      ["cap"] [] none "").1
    "T1"
    ⟨"T1", "t", ["cap"], none, TaskStatus.PENDING, "", "", [], [], none, none⟩
    "a" ⟨"a", "r", [], none, 0, ""⟩ none ["cap"] ""
    (by decide) (by decide) (by decide) (by decide) (by decide) (by decide)
    (by decide)

/-- Claim C3 (counterexample): with an empty required-capabilities list the
selection is NOT the first available agent in registration order — after "a"
has completed one task, a fresh assignment with no required capabilities
picks the less-loaded "b", while the first available agent in registration
order is "a". -/
theorem claim_C3_counterexample :
    (assign_task (complete_task (assign_task (create_task ((register_agent
        ((register_agent emptyCoordinator "a" "r" none "").1) "b" "r" none
        "").1) "t1" [] [] none "").1 (some "T1") none [] (some "a") "").1
        "T1" "" "") none (some "x") [] none "").2 = some ("b", "T2") ∧
    (first_available_policy (complete_task (assign_task (create_task
        ((register_agent ((register_agent emptyCoordinator "a" "r" none "").1)
        "b" "r" none "").1) "t1" [] [] none "").1 (some "T1") none []
        (some "a") "").1 "T1" "" "")).map Agent.name = some "a" ∧
    ("b" : String) ≠ "a" := by
  refine ⟨by decide, by decide, by decide⟩

/-- Claim C3 (amended): with an empty required-capabilities list and no
preferred agent, every available agent becomes a candidate with match count
0 and selection follows the scoring path — ascending completed-task count
with ties in registration order (the least-loaded policy); the
fall-back-to-first-available-agent rule applies only when required
capabilities are non-empty and no available agent matches any of them. -/
theorem claim_C3_amended :
    (∀ c : AgentCoordinator, find_best_agent c [] none = least_loaded_policy c) ∧
    (∀ (c : AgentCoordinator) (req : List String), req ≠ [] →
      (∀ a ∈ available_agents c, match_count req a.capabilities = 0) →
      find_best_agent c req none = first_available_policy c) := by
  constructor
  · intro c
    unfold find_best_agent least_loaded_policy
    cases hav : available_agents c with
    | nil =>
      have h1 : candidate_list c [] = [] := by
        rw [candidate_list_nil_caps, hav]
        rfl
      simp [h1, hav, stableSort]
    | cons a rest =>
      have h1 : candidate_list c [] = (a :: rest).map (fun x => (x, 0)) := by
        rw [candidate_list_nil_caps, hav]
      have h2 : (candidate_list c []).isEmpty = false := by
        rw [h1]
        rfl
      simp only [h2, Bool.false_eq_true, if_false, h1, stableSort_map_zero, hav]
      rw [List.head?_map, Option.map_map]
      cases (stableSort
        (fun a b => decide (a.tasks_completed ≤ b.tasks_completed))
        (a :: rest)).head? <;> rfl
  · intro c req hreq h
    unfold find_best_agent first_available_policy
    have h1 : candidate_list c req = [] := candidate_list_no_match c req hreq h
    simp [h1]

/-- Claim C3 (witness): concrete instance of the amended claim, with two
registered agents and a required capability that neither possesses. -/
theorem claim_C3_witness :
    find_best_agent ((register_agent ((register_agent emptyCoordinator "a"
        "r" none "").1) "b" "r" none "").1) ["z"] none =
      first_available_policy ((register_agent ((register_agent
        emptyCoordinator "a" "r" none "").1) "b" "r" none "").1) ∧
    find_best_agent ((register_agent ((register_agent emptyCoordinator "a"
        "r" none "").1) "b" "r" none "").1) [] none =
      least_loaded_policy ((register_agent ((register_agent emptyCoordinator
        "a" "r" none "").1) "b" "r" none "").1) :=
  ⟨claim_C3_amended.2 ((register_agent ((register_agent emptyCoordinator "a"
      "r" none "").1) "b" "r" none "").1) ["z"] (by decide) (by decide),
    claim_C3_amended.1 ((register_agent ((register_agent emptyCoordinator "a"
      "r" none "").1) "b" "r" none "").1)⟩

/-! ## Shapes of `create_task` -/

theorem create_task_get (c : AgentCoordinator) (d : String)
    (req deps : List String) (thr : Option String) (now : String) (k : String)
    (hk : k ≠ tid (c.task_counter + 1)) :
    dget (create_task c d req deps thr now).1.tasks k =
      (dget c.tasks k).map
        (fun t => { t with blocks :=
          t.blocks ++ List.replicate (deps.count k) (tid (c.task_counter + 1)) }) := by
  show dget (dep_link_fold (dset c.tasks (tid (c.task_counter + 1)) _) deps
    (tid (c.task_counter + 1))) k = _
  rw [dep_link_fold_get, dget_dset_ne _ _ _ _ hk]

theorem create_task_get_self (c : AgentCoordinator) (d : String)
    (req deps : List String) (thr : Option String) (now : String) :
    dget (create_task c d req deps thr now).1.tasks (tid (c.task_counter + 1)) =
      some { id := tid (c.task_counter + 1), description := d,
             required_capabilities := req, assigned_to := none,
             status := TaskStatus.PENDING, created := now, completed := "",
             depends_on := deps,
             blocks := List.replicate (deps.count (tid (c.task_counter + 1)))
               (tid (c.task_counter + 1)),
             thread := thr, result := none } := by
  show dget (dep_link_fold (dset c.tasks (tid (c.task_counter + 1)) _) deps
    (tid (c.task_counter + 1))) (tid (c.task_counter + 1)) = _
  rw [dep_link_fold_get, dget_dset_self]
  rfl

theorem create_task_ret_id (c : AgentCoordinator) (d : String)
    (req deps : List String) (thr : Option String) (now : String) :
    (create_task c d req deps thr now).2.id = tid (c.task_counter + 1) := by
  have h : (create_task c d req deps thr now).2 =
      ((dget (create_task c d req deps thr now).1.tasks
        (tid (c.task_counter + 1))).getD
          { id := tid (c.task_counter + 1), description := d,
            required_capabilities := req, assigned_to := none,
            status := TaskStatus.PENDING, created := now, completed := "",
            depends_on := deps, blocks := [], thread := thr, result := none }) := rfl
  rw [h, create_task_get_self]
  rfl

theorem create_task_agents (c : AgentCoordinator) (d : String)
    (req deps : List String) (thr : Option String) (now : String) :
    (create_task c d req deps thr now).1.agents = c.agents := rfl

theorem create_task_counter (c : AgentCoordinator) (d : String)
    (req deps : List String) (thr : Option String) (now : String) :
    (create_task c d req deps thr now).1.task_counter = c.task_counter + 1 := rfl

/-- Frame property of `assign_finish`: any task entry other than the
resolved one is untouched. -/
theorem assign_finish_tasks_frame (c1 : AgentCoordinator) (t : String)
    (req : List String) (prefer : Option String) (k : String) (h : t ≠ k) :
    dget (assign_finish c1 t req prefer).1.tasks k = dget c1.tasks k := by
  unfold assign_finish
  split
  · exact dget_dmodify_ne _ _ _ _ (Ne.symm h)
  · split
    · rfl
    · exact dget_dmodify_ne _ _ _ _ (Ne.symm h)

/-- Frame property of `assign_task`: any task entry other than the resolved
(or freshly created) one is untouched. -/
theorem assign_task_tasks_frame (c : AgentCoordinator) (task_id : Option String)
    (desc : Option String) (req : List String) (prefer : Option String)
    (now : String) (k : String) (hk : task_id ≠ some k)
    (hkfresh : k ≠ tid (c.task_counter + 1)) :
    dget (assign_task c task_id desc req prefer now).1.tasks k =
      dget c.tasks k := by
  cases task_id with
  | none =>
    by_cases hd : truthyS desc = true
    · have hres : assign_resolve c none desc req now =
          some ((create_task c (desc.getD "") req [] none now).1,
            tid (c.task_counter + 1)) := by
        simp only [assign_resolve]
        rw [if_pos hd]
        show some ((create_task c (desc.getD "") req [] none now).1,
          (create_task c (desc.getD "") req [] none now).2.id) = _
        rw [create_task_ret_id]
      rw [assign_task_eq_finish c none desc req prefer now _ _ hres,
        assign_finish_tasks_frame _ _ _ _ _ (fun he => hkfresh he.symm),
        create_task_get c (desc.getD "") req [] none now k hkfresh]
      cases dget c.tasks k with
      | none => rfl
      | some t => simp
    · have hres : assign_resolve c none desc req now = none := by
        simp only [assign_resolve]
        rw [if_neg hd]
      rw [assign_task_eq_unresolved c none desc req prefer now hres]
  | some t0 =>
    have ht0k : t0 ≠ k := fun he => hk (he ▸ rfl)
    by_cases h2 : t0 ≠ "" ∧ (dget c.tasks t0).isSome = true
    · have hres : assign_resolve c (some t0) desc req now = some (c, t0) :=
        assign_resolve_existing c t0 desc req now h2.1 h2.2
      rw [assign_task_eq_finish c (some t0) desc req prefer now c t0 hres,
        assign_finish_tasks_frame _ _ _ _ _ ht0k]
    · have hres : assign_resolve c (some t0) desc req now = none := by
        simp only [assign_resolve]
        rw [if_neg h2]
      rw [assign_task_eq_unresolved c (some t0) desc req prefer now hres]

/-- Claim C4 (counterexample): COMPLETED is not terminal — after completing
"T1", calling `assign_task` on "T1" sets its status straight back to
ASSIGNED (the code has no status guard on re-assignment). -/
theorem claim_C4_counterexample :
    ((dget (complete_task (create_task ((register_agent emptyCoordinator "a"
        "r" none "").1) "d" [] [] none "").1 "T1" "" "").tasks "T1").map
        Task.status = some TaskStatus.COMPLETED) ∧
    ((dget (assign_task (complete_task (create_task ((register_agent
        emptyCoordinator "a" "r" none "").1) "d" [] [] none "").1 "T1" "" "")
        (some "T1") none [] none "").1.tasks "T1").map Task.status =
      some TaskStatus.ASSIGNED) ∧
    TaskStatus.ASSIGNED ≠ TaskStatus.COMPLETED := by
  refine ⟨by decide, by decide, by decide⟩

/-- Claim C4 (amended): a COMPLETED task's status is preserved by
`register_agent`, by `create_task`, by `assign_task` invoked on any other
task id (or creating a new task), and by `complete_task` of any other task
that does not list the completed task among its dependents; however
`assign_task` invoked on the COMPLETED task itself re-assigns it (see the
counterexample), and `complete_task` of a task whose `blocks` list contains
the COMPLETED task can reset it to PENDING. -/
theorem claim_C4_amended (c : AgentCoordinator) (task_id : String) (t : Task)
    (ht : dget c.tasks task_id = some t)
    (hst : t.status = TaskStatus.COMPLETED)
    (hfresh : dget c.tasks (tid (c.task_counter + 1)) = none) :
    (∀ name role caps now,
      (dget ((register_agent c name role caps now).1.tasks) task_id).map
        Task.status = some TaskStatus.COMPLETED) ∧
    (∀ d req deps thr now,
      (dget ((create_task c d req deps thr now).1.tasks) task_id).map
        Task.status = some TaskStatus.COMPLETED) ∧
    (∀ tid' desc req prefer now, tid' ≠ some task_id →
      (dget ((assign_task c tid' desc req prefer now).1.tasks) task_id).map
        Task.status = some TaskStatus.COMPLETED) ∧
    (∀ tid' res now, tid' ≠ task_id →
      (∀ t0, dget c.tasks tid' = some t0 → task_id ∉ t0.blocks) →
      (dget ((complete_task c tid' res now).tasks) task_id).map Task.status
        = some TaskStatus.COMPLETED) := by
  have hk : task_id ≠ tid (c.task_counter + 1) := by
    intro he
    rw [he, hfresh] at ht
    exact Option.noConfusion ht
  refine ⟨?_, ?_, ?_, ?_⟩
  · intro name role caps now
    have h1 : (register_agent c name role caps now).1.tasks = c.tasks := rfl
    rw [h1, ht]
    simp [hst]
  · intro d req deps thr now
    rw [create_task_get c d req deps thr now task_id hk, ht]
    simp [hst]
  · intro tid' desc req prefer now hne
    rw [assign_task_tasks_frame c tid' desc req prefer now task_id
      (fun he => hne he) hk, ht]
    simp [hst]
  · intro tid' res now hne hbl
    cases h0 : dget c.tasks tid' with
    | none =>
      unfold complete_task
      rw [h0, ht]
      simp [hst]
    | some t0 =>
      have hnotmem : task_id ∉ t0.blocks := hbl t0 h0
      unfold complete_task
      rw [h0]
      rw [unblock_foldl_get_notmem _ _ _ hnotmem]
      show (dget (dmodify c.tasks tid'
        (fun x => { x with status := TaskStatus.COMPLETED, completed := now,
                           result := some res })) task_id).map Task.status =
        some TaskStatus.COMPLETED
      rw [dget_dmodify_ne _ _ _ _ (Ne.symm hne), ht]
      simp [hst]

/-- Claim C4 (witness): concrete instance of the amended claim — after "T1"
is completed, an assignment of the unknown id "T9" and a completion of "T9"
both leave "T1" COMPLETED. -/
theorem claim_C4_witness :
    ((dget ((assign_task (complete_task (create_task ((register_agent
        emptyCoordinator "a" "r" none "").1) "d" [] [] none "").1 "T1" "" "")
        (some "T9") none [] none "").1.tasks) "T1").map Task.status =
      some TaskStatus.COMPLETED) ∧
    ((dget ((complete_task (complete_task (create_task ((register_agent
        emptyCoordinator "a" "r" none "").1) "d" [] [] none "").1 "T1" "" "")
        "T9" "" "").tasks) "T1").map Task.status =
      some TaskStatus.COMPLETED) :=
  ⟨(claim_C4_amended
      (complete_task (create_task ((register_agent emptyCoordinator "a" "r"
        none "").1) "d" [] [] none "").1 "T1" "" "")
      "T1" ⟨"T1", "d", [], none, TaskStatus.COMPLETED, "", "", [], [], none,
        some ""⟩
      (by decide) (by decide) (by decide)).2.2.1
      (some "T9") none [] none "" (by decide),
    (claim_C4_amended
      (complete_task (create_task ((register_agent emptyCoordinator "a" "r"
        none "").1) "d" [] [] none "").1 "T1" "" "")
      "T1" ⟨"T1", "d", [], none, TaskStatus.COMPLETED, "", "", [], [], none,
        some ""⟩
      (by decide) (by decide) (by decide)).2.2.2
      "T9" "" "" (by decide)
      (by
        intro t0 h0
        rw [show dget (complete_task (create_task ((register_agent
          emptyCoordinator "a" "r" none "").1) "d" [] [] none "").1 "T1" ""
          "").tasks "T9" = none from by decide] at h0
        exact Option.noConfusion h0)⟩

/-! ## No id ever enters a `blocks` list after its bearer's creation -/

theorem blocks_sub_dmodify (ts : Dict Task) (k : String) (f : Task → Task)
    (hf : ∀ x, (f x).blocks = x.blocks) (D : String) (n : Nat)
    (hbl : ∀ t, dget ts D = some t → tid n ∉ t.blocks) :
    ∀ t', dget (dmodify ts k f) D = some t' → tid n ∉ t'.blocks := by
  intro t' hget
  by_cases hDk : D = k
  · subst hDk
    rw [dget_dmodify_self] at hget
    cases h0 : dget ts D with
    | none => rw [h0] at hget; exact Option.noConfusion hget
    | some t0 =>
      rw [h0] at hget
      simp only [Option.map_some'] at hget
      obtain rfl := Option.some.inj hget
      rw [hf]
      exact hbl t0 h0
  · rw [dget_dmodify_ne _ _ _ _ hDk] at hget
    exact hbl t' hget

theorem blocks_inv_create (n : Nat) (D : String) (c : AgentCoordinator)
    (d : String) (req deps : List String) (thr : Option String) (now : String)
    (hcnt : n ≤ c.task_counter)
    (hbl : ∀ t, dget c.tasks D = some t → tid n ∉ t.blocks) :
    n ≤ (create_task c d req deps thr now).1.task_counter ∧
    ∀ t, dget (create_task c d req deps thr now).1.tasks D = some t →
      tid n ∉ t.blocks := by
  have hfreshne : tid n ≠ tid (c.task_counter + 1) := tid_ne_of_ne (by omega)
  constructor
  · rw [create_task_counter]
    omega
  · intro t hget
    by_cases hD : D = tid (c.task_counter + 1)
    · rw [hD, create_task_get_self] at hget
      obtain rfl := Option.some.inj hget
      intro hmem
      exact hfreshne (List.eq_of_mem_replicate hmem)
    · rw [create_task_get _ _ _ _ _ _ _ hD] at hget
      cases h0 : dget c.tasks D with
      | none => rw [h0] at hget; exact Option.noConfusion hget
      | some t0 =>
        rw [h0] at hget
        simp only [Option.map_some'] at hget
        obtain rfl := Option.some.inj hget
        intro hmem
        rcases List.mem_append.mp hmem with hm | hm
        · exact hbl t0 h0 hm
        · exact hfreshne (List.eq_of_mem_replicate hm)

theorem blocks_inv_finish (n : Nat) (D : String) (c1 : AgentCoordinator)
    (t : String) (req : List String) (prefer : Option String)
    (hcnt : n ≤ c1.task_counter)
    (hbl : ∀ tk, dget c1.tasks D = some tk → tid n ∉ tk.blocks) :
    n ≤ (assign_finish c1 t req prefer).1.task_counter ∧
    ∀ tk, dget (assign_finish c1 t req prefer).1.tasks D = some tk →
      tid n ∉ tk.blocks := by
  unfold assign_finish
  split
  · refine ⟨hcnt, ?_⟩
    exact blocks_sub_dmodify c1.tasks t
      (fun tk => { tk with status := TaskStatus.BLOCKED }) (fun x => rfl)
      D n hbl
  · split
    · exact ⟨hcnt, hbl⟩
    · rename_i ag heq
      refine ⟨hcnt, ?_⟩
      exact blocks_sub_dmodify c1.tasks t
        (fun tk => { tk with assigned_to := some ag.name,
                             status := TaskStatus.ASSIGNED }) (fun x => rfl)
        D n hbl

theorem blocks_inv_assign (n : Nat) (D : String) (c : AgentCoordinator)
    (task_id desc : Option String) (req : List String)
    (prefer : Option String) (now : String)
    (hcnt : n ≤ c.task_counter)
    (hbl : ∀ t, dget c.tasks D = some t → tid n ∉ t.blocks) :
    n ≤ (assign_task c task_id desc req prefer now).1.task_counter ∧
    ∀ t, dget (assign_task c task_id desc req prefer now).1.tasks D = some t →
      tid n ∉ t.blocks := by
  cases task_id with
  | none =>
    by_cases hd : truthyS desc = true
    · have hres : assign_resolve c none desc req now =
          some ((create_task c (desc.getD "") req [] none now).1,
            tid (c.task_counter + 1)) := by
        simp only [assign_resolve]
        rw [if_pos hd]
        show some ((create_task c (desc.getD "") req [] none now).1,
          (create_task c (desc.getD "") req [] none now).2.id) = _
        rw [create_task_ret_id]
      rw [assign_task_eq_finish c none desc req prefer now _ _ hres]
      have hc1 := blocks_inv_create n D c (desc.getD "") req [] none now hcnt hbl
      exact blocks_inv_finish n D _ _ req prefer hc1.1 hc1.2
    · have hres : assign_resolve c none desc req now = none := by
        simp only [assign_resolve]
        rw [if_neg hd]
      rw [assign_task_eq_unresolved c none desc req prefer now hres]
      exact ⟨hcnt, hbl⟩
  | some t0 =>
    by_cases h2 : t0 ≠ "" ∧ (dget c.tasks t0).isSome = true
    · have hres : assign_resolve c (some t0) desc req now = some (c, t0) :=
        assign_resolve_existing c t0 desc req now h2.1 h2.2
      rw [assign_task_eq_finish c (some t0) desc req prefer now c t0 hres]
      exact blocks_inv_finish n D c t0 req prefer hcnt hbl
    · have hres : assign_resolve c (some t0) desc req now = none := by
        simp only [assign_resolve]
        rw [if_neg h2]
      rw [assign_task_eq_unresolved c (some t0) desc req prefer now hres]
      exact ⟨hcnt, hbl⟩

theorem blocks_inv_unblock_foldl (n : Nat) (D : String) (bs : List String)
    (cc : AgentCoordinator)
    (hbl : ∀ t, dget cc.tasks D = some t → tid n ∉ t.blocks) :
    ∀ t, dget (bs.foldl unblock_step cc).tasks D = some t → tid n ∉ t.blocks := by
  intro t hget
  rcases unblock_foldl_get bs cc D with h | h
  · rw [h] at hget
    exact hbl t hget
  · rw [h] at hget
    cases h0 : dget cc.tasks D with
    | none => rw [h0] at hget; exact Option.noConfusion hget
    | some t0 =>
      rw [h0] at hget
      simp only [Option.map_some'] at hget
      obtain rfl := Option.some.inj hget
      exact hbl t0 h0

theorem blocks_inv_complete (n : Nat) (D : String) (c : AgentCoordinator)
    (tid0 res now : String)
    (hcnt : n ≤ c.task_counter)
    (hbl : ∀ t, dget c.tasks D = some t → tid n ∉ t.blocks) :
    n ≤ (complete_task c tid0 res now).task_counter ∧
    ∀ t, dget (complete_task c tid0 res now).tasks D = some t →
      tid n ∉ t.blocks := by
  unfold complete_task
  cases h0 : dget c.tasks tid0 with
  | none => exact ⟨hcnt, hbl⟩
  | some t0 =>
    constructor
    · rw [unblock_foldl_counter]
      exact hcnt
    · apply blocks_inv_unblock_foldl
      exact blocks_sub_dmodify c.tasks tid0
        (fun x => { x with status := TaskStatus.COMPLETED, completed := now,
                           result := some res }) (fun x => rfl) D n hbl

theorem blocks_inv_step (n : Nat) (D : String) (c : AgentCoordinator)
    (op : CoordOp) (hcnt : n ≤ c.task_counter)
    (hbl : ∀ t, dget c.tasks D = some t → tid n ∉ t.blocks) :
    n ≤ (coord_step c op).task_counter ∧
    ∀ t, dget (coord_step c op).tasks D = some t → tid n ∉ t.blocks := by
  cases op with
  | register name role caps now => exact ⟨hcnt, hbl⟩
  | create d req deps thr now => exact blocks_inv_create n D c d req deps thr now hcnt hbl
  | assign t0 d req p now => exact blocks_inv_assign n D c t0 d req p now hcnt hbl
  | complete t0 res now => exact blocks_inv_complete n D c t0 res now hcnt hbl

theorem blocks_inv_run (n : Nat) (D : String) :
    ∀ (ops : List CoordOp) (c : AgentCoordinator), n ≤ c.task_counter →
      (∀ t, dget c.tasks D = some t → tid n ∉ t.blocks) →
      ∀ t, dget (coord_run c ops).tasks D = some t → tid n ∉ t.blocks := by
  intro ops
  induction ops with
  | nil => intro c hcnt hbl; exact hbl
  | cons op rest ih =>
    intro c hcnt hbl
    have hstep := blocks_inv_step n D c op hcnt hbl
    exact ih (coord_step c op) hstep.1 hstep.2

/-- Claim C5: `create_task` appends the new task's id to the `blocks` list
of every dependency id already present in the task table, touches no other
entry, and performs no inverse-link update for a dependency id that is
absent; if such a dependency id `D` is created later (by any sequence of
subsequent operations), `D`'s `blocks` list never contains the earlier
task's id — the inverse-relation invariant holds exactly for the pairs whose
dependency existed at creation time. -/
theorem claim_C5 (c : AgentCoordinator) (d : String) (req deps : List String)
    (thr : Option String) (now : String) (D : String)
    (hfresh : dget c.tasks (tid (c.task_counter + 1)) = none)
    (hD : dget c.tasks D = none) (hDfresh : D ≠ tid (c.task_counter + 1)) :
    ((create_task c d req deps thr now).2.id = tid (c.task_counter + 1)) ∧
    (∀ dep ∈ deps, ∀ t, dget c.tasks dep = some t →
      ∃ t', dget (create_task c d req deps thr now).1.tasks dep = some t' ∧
        (create_task c d req deps thr now).2.id ∈ t'.blocks) ∧
    (∀ k t, dget c.tasks k = some t → k ∉ deps →
      dget (create_task c d req deps thr now).1.tasks k = some t) ∧
    (∀ (ops : List CoordOp) (t' : Task),
      dget (coord_run (create_task c d req deps thr now).1 ops).tasks D = some t' →
      (create_task c d req deps thr now).2.id ∉ t'.blocks) := by
  have hid := create_task_ret_id c d req deps thr now
  refine ⟨hid, ?_, ?_, ?_⟩
  · intro dep hdep t ht
    have hdepfresh : dep ≠ tid (c.task_counter + 1) := by
      intro he
      rw [he, hfresh] at ht
      exact Option.noConfusion ht
    rw [create_task_get _ _ _ _ _ _ _ hdepfresh, ht]
    refine ⟨_, rfl, ?_⟩
    rw [hid]
    apply List.mem_append_right
    apply List.mem_replicate.mpr
    refine ⟨?_, rfl⟩
    have := List.count_pos_iff.mpr hdep
    omega
  · intro k t ht hk
    have hkfresh : k ≠ tid (c.task_counter + 1) := by
      intro he
      rw [he, hfresh] at ht
      exact Option.noConfusion ht
    rw [create_task_get _ _ _ _ _ _ _ hkfresh, ht]
    have hc : deps.count k = 0 := List.count_eq_zero.mpr hk
    simp [hc]
  · intro ops t' hget
    rw [hid]
    refine blocks_inv_run (c.task_counter + 1) D ops
      (create_task c d req deps thr now).1 ?_ ?_ t' hget
    · rw [create_task_counter]
    · intro t hgetD
      rw [create_task_get _ _ _ _ _ _ _ hDfresh, hD] at hgetD
      exact Option.noConfusion hgetD

/-- Claim C5 (witness): concrete instance — "T2" is created depending on the
existing "T1" and the absent "T3"; "T1" gets the inverse link, and after
creating "T3" and completing everything, "T3" never lists "T2". -/
theorem claim_C5_witness :
    ((create_task ((create_task emptyCoordinator "a" [] [] none "").1) "b" []
      ["T1", "T3"] none "").2.id = tid 2) ∧
    (∃ t', dget (create_task ((create_task emptyCoordinator "a" [] [] none
      "").1) "b" [] ["T1", "T3"] none "").1.tasks "T1" = some t' ∧
      (create_task ((create_task emptyCoordinator "a" [] [] none "").1) "b" []
        ["T1", "T3"] none "").2.id ∈ t'.blocks) ∧
    (∀ t', dget (coord_run (create_task ((create_task emptyCoordinator "a" []
      [] none "").1) "b" [] ["T1", "T3"] none "").1
        [CoordOp.create "c" [] [] none "", CoordOp.complete "T2" "" ""]).tasks
        "T3" = some t' →
      (create_task ((create_task emptyCoordinator "a" [] [] none "").1) "b" []
        ["T1", "T3"] none "").2.id ∉ t'.blocks) := by
  have h := claim_C5 ((create_task emptyCoordinator "a" [] [] none "").1) "b"
    [] ["T1", "T3"] none "" "T3" (by decide) (by decide) (by decide)
  refine ⟨h.1, ?_, ?_⟩
  · exact h.2.1 "T1" (by decide)
      ⟨"T1", "a", [], none, TaskStatus.PENDING, "", "", [], [], none, none⟩
      (by decide)
  · intro t' hget
    exact h.2.2.2 [CoordOp.create "c" [] [] none "",
      CoordOp.complete "T2" "" ""] t' hget

/-! ## Dependency blocking and unblocking -/

theorem unblock_step_taken (cc : AgentCoordinator) (b : String)
    (h1 : (dget cc.tasks b).isSome = true) (h2 : is_blocked cc b = false) :
    unblock_step cc b =
      ⟨cc.agents,
        dmodify cc.tasks b (fun t => { t with status := TaskStatus.PENDING }),
        cc.task_counter⟩ := by
  unfold unblock_step
  rw [if_pos ⟨h1, by simp [h2]⟩]

/-- The unblocking loop of `complete_task`, run over `bs ++ [F]` from a
state where the completed dependency D (not an element of `bs`) is
COMPLETED and F's only dependency is D, ends with F PENDING. -/
theorem unblock_chain (start : AgentCoordinator) (D F : String)
    (bs : List String) (dTc tB : Task)
    (hDbs : D ∉ bs)
    (hstartD : dget start.tasks D = some dTc)
    (hstatD : dTc.status = TaskStatus.COMPLETED)
    (hstartF : dget start.tasks F = some tB)
    (hdeps : tB.depends_on = [D]) :
    (dget ((bs ++ [F]).foldl unblock_step start).tasks F).map Task.status =
      some TaskStatus.PENDING := by
  rw [List.foldl_append]
  simp only [List.foldl_cons, List.foldl_nil]
  have hmidD : dget (bs.foldl unblock_step start).tasks D = some dTc := by
    rw [unblock_foldl_get_notmem _ _ _ hDbs, hstartD]
  obtain ⟨tkF, hgetF, hdepsF⟩ : ∃ tk,
      dget (bs.foldl unblock_step start).tasks F = some tk ∧
      tk.depends_on = [D] := by
    rcases unblock_foldl_get bs start F with h | h
    · exact ⟨tB, by rw [h, hstartF], hdeps⟩
    · exact ⟨{ tB with status := TaskStatus.PENDING },
        by rw [h, hstartF]; rfl, hdeps⟩
  have hsD : status_of (bs.foldl unblock_step start).tasks D =
      TaskStatus.COMPLETED := by
    unfold status_of
    rw [hmidD]
    exact hstatD
  have hnbF : is_blocked (bs.foldl unblock_step start) F = false := by
    unfold is_blocked
    rw [hgetF]
    show (tkF.depends_on.any fun dep =>
      !decide (status_of (bs.foldl unblock_step start).tasks dep =
        TaskStatus.COMPLETED)) = false
    rw [hdepsF]
    simp [hsD]
  rw [unblock_step_taken _ _ (by simp [hgetF]) hnbF]
  show (dget (dmodify (bs.foldl unblock_step start).tasks F
    (fun t => { t with status := TaskStatus.PENDING })) F).map Task.status =
    some TaskStatus.PENDING
  rw [dget_dmodify_self, hgetF]
  rfl

/-- Claim C1 (counterexample): if D is self-dependent ("T1" created with
`depends_on = ["T1"]`, so "T1" is in its own `blocks` list), then after
creating T = "T2" with `depends_on = ["T1"]` and assigning it (BLOCKED, as
claimed), `complete_task("T1")` resets "T1" itself to PENDING before
re-checking "T2" — so "T2" stays BLOCKED instead of becoming PENDING. -/
theorem claim_C1_counterexample :
    ((dget (create_task ((create_task emptyCoordinator "d" [] ["T1"] none
      "").1) "t" [] ["T1"] none "").1.tasks "T2").map Task.depends_on =
      some ["T1"]) ∧
    ((assign_task (create_task ((create_task emptyCoordinator "d" [] ["T1"]
      none "").1) "t" [] ["T1"] none "").1 (some "T2") none [] none "").2 =
      none) ∧
    ((dget (assign_task (create_task ((create_task emptyCoordinator "d" []
      ["T1"] none "").1) "t" [] ["T1"] none "").1 (some "T2") none [] none
      "").1.tasks "T2").map Task.status = some TaskStatus.BLOCKED) ∧
    ((dget (complete_task (assign_task (create_task ((create_task
      emptyCoordinator "d" [] ["T1"] none "").1) "t" [] ["T1"] none "").1
      (some "T2") none [] none "").1 "T1" "" "").tasks "T2").map Task.status =
      some TaskStatus.BLOCKED) ∧
    TaskStatus.BLOCKED ≠ TaskStatus.PENDING := by
  refine ⟨by decide, by decide, by decide, by decide, by decide⟩

/-- Claim C1 (amended): in any coordinator holding a task D that is not in
its own `blocks` list (no self-dependency), creating T with
`depends_on = [D]` while D is not COMPLETED, then calling `assign_task` on
T, marks T BLOCKED, assigns no agent (T's `assigned_to` stays none and the
agent registry is unchanged) and returns none; a subsequent
`complete_task(D)` sets T's status to PENDING with no further calls. -/
theorem claim_C1_amended (c0 : AgentCoordinator) (D : String) (dT : Task)
    (desc : String) (req req2 : List String) (thr : Option String)
    (prefer : Option String) (now now2 res : String)
    (hD : dget c0.tasks D = some dT)
    (hstat : dT.status ≠ TaskStatus.COMPLETED)
    (hself : D ∉ dT.blocks)
    (hfresh : dget c0.tasks (tid (c0.task_counter + 1)) = none) :
    ((assign_task (create_task c0 desc req [D] thr now).1
        (some (create_task c0 desc req [D] thr now).2.id) none req2 prefer
        now).2 = none) ∧
    ((dget (assign_task (create_task c0 desc req [D] thr now).1
        (some (create_task c0 desc req [D] thr now).2.id) none req2 prefer
        now).1.tasks (create_task c0 desc req [D] thr now).2.id).map
        Task.status = some TaskStatus.BLOCKED) ∧
    ((dget (assign_task (create_task c0 desc req [D] thr now).1
        (some (create_task c0 desc req [D] thr now).2.id) none req2 prefer
        now).1.tasks (create_task c0 desc req [D] thr now).2.id).map
        Task.assigned_to = some none) ∧
    ((assign_task (create_task c0 desc req [D] thr now).1
        (some (create_task c0 desc req [D] thr now).2.id) none req2 prefer
        now).1.agents = c0.agents) ∧
    ((dget (complete_task (assign_task (create_task c0 desc req [D] thr
        now).1 (some (create_task c0 desc req [D] thr now).2.id) none req2
        prefer now).1 D res now2).tasks
        (create_task c0 desc req [D] thr now).2.id).map Task.status =
      some TaskStatus.PENDING) := by
  have hDF : D ≠ tid (c0.task_counter + 1) := by
    intro he
    rw [he, hfresh] at hD
    exact Option.noConfusion hD
  have hid := create_task_ret_id c0 desc req [D] thr now
  have hcount : ([D].count (tid (c0.task_counter + 1))) = 0 := by
    simp [List.count_cons, List.count_nil, hDF]
  have hcountD : ([D].count D) = 1 := by
    simp [List.count_cons, List.count_nil]
  -- the stored fresh task
  have hT1 : dget (create_task c0 desc req [D] thr now).1.tasks
      (tid (c0.task_counter + 1)) =
      some { id := tid (c0.task_counter + 1), description := desc,
             required_capabilities := req, assigned_to := none,
             status := TaskStatus.PENDING, created := now, completed := "",
             depends_on := [D], blocks := [], thread := thr, result := none } := by
    rw [create_task_get_self, hcount]
    rfl
  -- the dependency's entry after creation
  have hD1 : dget (create_task c0 desc req [D] thr now).1.tasks D =
      some { dT with blocks := dT.blocks ++ [tid (c0.task_counter + 1)] } := by
    rw [create_task_get _ _ _ _ _ _ _ hDF, hD, hcountD]
    rfl
  -- T is blocked in the post-creation state
  have hb : is_blocked (create_task c0 desc req [D] thr now).1
      (tid (c0.task_counter + 1)) = true := by
    unfold is_blocked
    rw [hT1]
    show ([D].any fun dep => !decide (status_of (create_task c0 desc req [D]
      thr now).1.tasks dep = TaskStatus.COMPLETED)) = true
    have hsD : status_of (create_task c0 desc req [D] thr now).1.tasks D =
        dT.status := by
      unfold status_of
      rw [hD1]
    simp [hsD, hstat]
  have hasn := assign_task_blocked (create_task c0 desc req [D] thr now).1
    (tid (c0.task_counter + 1)) _ none req2 prefer now hT1
    (tid_ne_empty _) hb
  rw [hid, hasn]
  refine ⟨rfl, ?_, ?_, rfl, ?_⟩
  · show (dget (dmodify (create_task c0 desc req [D] thr now).1.tasks
      (tid (c0.task_counter + 1))
      (fun x => { x with status := TaskStatus.BLOCKED }))
      (tid (c0.task_counter + 1))).map Task.status = some TaskStatus.BLOCKED
    rw [dget_dmodify_self, hT1]
    rfl
  · show (dget (dmodify (create_task c0 desc req [D] thr now).1.tasks
      (tid (c0.task_counter + 1))
      (fun x => { x with status := TaskStatus.BLOCKED }))
      (tid (c0.task_counter + 1))).map Task.assigned_to = some none
    rw [dget_dmodify_self, hT1]
    rfl
  · -- the completion of D unblocks T
    have hD2 : dget (dmodify (create_task c0 desc req [D] thr now).1.tasks
        (tid (c0.task_counter + 1))
        (fun x => { x with status := TaskStatus.BLOCKED })) D =
        some { dT with blocks := dT.blocks ++ [tid (c0.task_counter + 1)] } := by
      rw [dget_dmodify_ne _ _ _ _ hDF, hD1]
    unfold complete_task
    rw [hD2]
    show (dget ((dT.blocks ++ [tid (c0.task_counter + 1)]).foldl unblock_step
      _).tasks (tid (c0.task_counter + 1))).map Task.status =
      some TaskStatus.PENDING
    refine unblock_chain _ D (tid (c0.task_counter + 1)) dT.blocks
      { dT with blocks := dT.blocks ++ [tid (c0.task_counter + 1)],
                status := TaskStatus.COMPLETED, completed := now2,
                result := some res }
      { id := tid (c0.task_counter + 1), description := desc,
        required_capabilities := req, assigned_to := none,
        status := TaskStatus.BLOCKED, created := now, completed := "",
        depends_on := [D], blocks := [], thread := thr, result := none }
      hself ?_ rfl ?_ rfl
    · show dget (dmodify (dmodify (create_task c0 desc req [D] thr
        now).1.tasks (tid (c0.task_counter + 1))
        (fun x => { x with status := TaskStatus.BLOCKED })) D
        (fun x => { x with status := TaskStatus.COMPLETED, completed := now2,
                           result := some res })) D = _
      rw [dget_dmodify_self, hD2]
      rfl
    · show dget (dmodify (dmodify (create_task c0 desc req [D] thr
        now).1.tasks (tid (c0.task_counter + 1))
        (fun x => { x with status := TaskStatus.BLOCKED })) D
        (fun x => { x with status := TaskStatus.COMPLETED, completed := now2,
                           result := some res })) (tid (c0.task_counter + 1)) = _
      rw [dget_dmodify_ne _ _ _ _ (Ne.symm hDF), dget_dmodify_self, hT1]
      rfl

/-- Claim C1 (witness): concrete instance of the amended claim — "T1" with
no self-dependency, "T2" depending on it. -/
theorem claim_C1_witness :
    ((assign_task (create_task ((create_task emptyCoordinator "d" [] [] none
        "").1) "t" [] ["T1"] none "").1
        (some (create_task ((create_task emptyCoordinator "d" [] [] none
        "").1) "t" [] ["T1"] none "").2.id) none [] none "").2 = none) ∧
    ((dget (assign_task (create_task ((create_task emptyCoordinator "d" [] []
        none "").1) "t" [] ["T1"] none "").1
        (some (create_task ((create_task emptyCoordinator "d" [] [] none
        "").1) "t" [] ["T1"] none "").2.id) none [] none "").1.tasks
        (create_task ((create_task emptyCoordinator "d" [] [] none "").1) "t"
        [] ["T1"] none "").2.id).map Task.status = some TaskStatus.BLOCKED) ∧
    ((dget (assign_task (create_task ((create_task emptyCoordinator "d" [] []
        none "").1) "t" [] ["T1"] none "").1
        (some (create_task ((create_task emptyCoordinator "d" [] [] none
        "").1) "t" [] ["T1"] none "").2.id) none [] none "").1.tasks
        (create_task ((create_task emptyCoordinator "d" [] [] none "").1) "t"
        [] ["T1"] none "").2.id).map Task.assigned_to = some none) ∧
    ((assign_task (create_task ((create_task emptyCoordinator "d" [] [] none
        "").1) "t" [] ["T1"] none "").1
        (some (create_task ((create_task emptyCoordinator "d" [] [] none
        "").1) "t" [] ["T1"] none "").2.id) none [] none "").1.agents =
      ((create_task emptyCoordinator "d" [] [] none "").1).agents) ∧
    ((dget (complete_task (assign_task (create_task ((create_task
        emptyCoordinator "d" [] [] none "").1) "t" [] ["T1"] none "").1
        (some (create_task ((create_task emptyCoordinator "d" [] [] none
        "").1) "t" [] ["T1"] none "").2.id) none [] none "").1 "T1" "r"
        "ts").tasks (create_task ((create_task emptyCoordinator "d" [] []
        none "").1) "t" [] ["T1"] none "").2.id).map Task.status =
      some TaskStatus.PENDING) :=
  claim_C1_amended ((create_task emptyCoordinator "d" [] [] none "").1) "T1"
    ⟨"T1", "d", [], none, TaskStatus.PENDING, "", "", [], [], none, none⟩
    "t" [] [] none none "" "ts" "r"
    (by decide) (by decide) (by decide) (by decide)

/-! ## Polling loop: frame and quiet-cycle lemmas -/

theorem record_seen_frame (st : LoopState) (th f : String) :
    (record_seen st th f).history = st.history ∧
    (record_seen st th f).pending_tasks = st.pending_tasks ∧
    (record_seen st th f).cycle_count = st.cycle_count := by
  unfold record_seen
  dsimp only []
  split <;> exact ⟨rfl, rfl, rfl⟩

theorem record_seen_foldl_frame (msgs : List Message) (st : LoopState)
    (th : String) :
    ((msgs.foldl (fun s m => record_seen s th m.filename) st).history =
      st.history) ∧
    ((msgs.foldl (fun s m => record_seen s th m.filename) st).pending_tasks =
      st.pending_tasks) ∧
    ((msgs.foldl (fun s m => record_seen s th m.filename) st).cycle_count =
      st.cycle_count) := by
  induction msgs generalizing st with
  | nil => exact ⟨rfl, rfl, rfl⟩
  | cons m rest ih =>
    simp only [List.foldl_cons]
    have h1 := record_seen_frame st th m.filename
    have h2 := ih (record_seen st th m.filename)
    exact ⟨h2.1.trans h1.1, h2.2.1.trans h1.2.1, h2.2.2.trans h1.2.2⟩

theorem check_thread_step_frame (loop : AutonomousLoop)
    (acc : LoopState × List Message) (th : String) :
    ((check_thread_step loop acc th).1.history = acc.1.history) ∧
    ((check_thread_step loop acc th).1.pending_tasks = acc.1.pending_tasks) ∧
    ((check_thread_step loop acc th).1.cycle_count = acc.1.cycle_count) := by
  unfold check_thread_step
  dsimp only []
  split
  · exact ⟨rfl, rfl, rfl⟩
  · rename_i new heq
    exact record_seen_foldl_frame new acc.1 th

theorem check_new_messages_frame (loop : AutonomousLoop) (st : LoopState) :
    ((check_new_messages loop st).1.history = st.history) ∧
    ((check_new_messages loop st).1.pending_tasks = st.pending_tasks) ∧
    ((check_new_messages loop st).1.cycle_count = st.cycle_count) := by
  unfold check_new_messages
  have haux : ∀ (ths : List String) (acc : LoopState × List Message),
      ((ths.foldl (check_thread_step loop) acc).1.history = acc.1.history) ∧
      ((ths.foldl (check_thread_step loop) acc).1.pending_tasks =
        acc.1.pending_tasks) ∧
      ((ths.foldl (check_thread_step loop) acc).1.cycle_count =
        acc.1.cycle_count) := by
    intro ths
    induction ths with
    | nil => intro acc; exact ⟨rfl, rfl, rfl⟩
    | cons th rest ih =>
      intro acc
      simp only [List.foldl_cons]
      have h1 := check_thread_step_frame loop acc th
      have h2 := ih (check_thread_step loop acc th)
      exact ⟨h2.1.trans h1.1, h2.2.1.trans h1.2.1, h2.2.2.trans h1.2.2⟩
  exact haux loop.threads (st, [])

theorem select_task_frame (loop : AutonomousLoop) (msgs : List Message)
    (st : LoopState) :
    ((select_task loop msgs st).2.history = st.history) ∧
    ((select_task loop msgs st).2.cycle_count = st.cycle_count) := by
  unfold select_task
  dsimp only []
  split <;> split <;> exact ⟨rfl, rfl⟩

theorem check_thread_step_quiet (loop : AutonomousLoop)
    (hget : ∀ th l, loop.get_new_messages th l = Except.ok [])
    (hread : ∀ th n, loop.read_thread th n = Except.ok [])
    (acc : LoopState × List Message) (th : String) :
    check_thread_step loop acc th = acc := by
  unfold check_thread_step
  dsimp only []
  by_cases h : ((dget acc.1.last_seen th).getD "") ≠ ""
  · rw [if_pos h, hget]
    simp
  · rw [if_neg h, hread]
    simp

theorem check_new_messages_quiet (loop : AutonomousLoop)
    (hget : ∀ th l, loop.get_new_messages th l = Except.ok [])
    (hread : ∀ th n, loop.read_thread th n = Except.ok [])
    (st : LoopState) :
    check_new_messages loop st = (st, []) := by
  unfold check_new_messages
  have haux : ∀ (ths : List String),
      ths.foldl (check_thread_step loop) (st, []) = (st, []) := by
    intro ths
    induction ths with
    | nil => rfl
    | cons th rest ih =>
      rw [List.foldl_cons, check_thread_step_quiet loop hget hread, ih]
  exact haux loop.threads

theorem select_task_quiet (loop : AutonomousLoop) (st : LoopState)
    (hthink : ∀ m s, loop.think_fn m s = none)
    (hpend : st.pending_tasks = []) :
    select_task loop [] st = (none, st) := by
  unfold select_task
  simp [hpend, hthink, truthyS]

theorem run_cycle_quiet (loop : AutonomousLoop) (st : LoopState)
    (hget : ∀ th l, loop.get_new_messages th l = Except.ok [])
    (hread : ∀ th n, loop.read_thread th n = Except.ok [])
    (hthink : ∀ m s, loop.think_fn m s = none)
    (hpend : st.pending_tasks = []) :
    ((run_cycle loop st).2.action_taken = none) ∧
    ((run_cycle loop st).1.cycle_count = st.cycle_count + 1) ∧
    ((run_cycle loop st).1.pending_tasks = []) ∧
    ((run_cycle loop st).1.history.length = st.history.length + 1) := by
  have hq := check_new_messages_quiet loop hget hread
    { st with cycle_count := st.cycle_count + 1 }
  have hsel := select_task_quiet loop
    { st with cycle_count := st.cycle_count + 1 } hthink hpend
  unfold run_cycle
  dsimp only []
  rw [hq]
  simp only [hsel]
  simp [hpend]

theorem run_from_quiet (loop : AutonomousLoop)
    (hget : ∀ th l, loop.get_new_messages th l = Except.ok [])
    (hread : ∀ th n, loop.read_thread th n = Except.ok [])
    (hthink : ∀ m s, loop.think_fn m s = none) :
    ∀ (fuel : Nat) (st : LoopState) (idle N : Nat),
      st.pending_tasks = [] → 0 < N → idle < N → N - idle ≤ fuel →
      ((run_from loop st idle fuel N).cycle_count =
        st.cycle_count + (N - idle)) ∧
      ((run_from loop st idle fuel N).history.length =
        st.history.length + (N - idle)) := by
  intro fuel
  induction fuel with
  | zero =>
    intro st idle N hpend hN hidle hfuel
    omega
  | succ fuel ih =>
    intro st idle N hpend hN hidle hfuel
    have hq := run_cycle_quiet loop st hget hread hthink hpend
    show ((if N ≠ 0 ∧ N ≤ (if truthyS (run_cycle loop st).2.action_taken
        then 0 else idle + 1) then (run_cycle loop st).1
      else run_from loop (run_cycle loop st).1
        (if truthyS (run_cycle loop st).2.action_taken then 0 else idle + 1)
        fuel N).cycle_count = st.cycle_count + (N - idle)) ∧
      ((if N ≠ 0 ∧ N ≤ (if truthyS (run_cycle loop st).2.action_taken
        then 0 else idle + 1) then (run_cycle loop st).1
      else run_from loop (run_cycle loop st).1
        (if truthyS (run_cycle loop st).2.action_taken then 0 else idle + 1)
        fuel N).history.length = st.history.length + (N - idle))
    rw [hq.1]
    show ((if N ≠ 0 ∧ N ≤ idle + 1 then (run_cycle loop st).1
      else run_from loop (run_cycle loop st).1 (idle + 1) fuel
        N).cycle_count = st.cycle_count + (N - idle)) ∧
      ((if N ≠ 0 ∧ N ≤ idle + 1 then (run_cycle loop st).1
      else run_from loop (run_cycle loop st).1 (idle + 1) fuel
        N).history.length = st.history.length + (N - idle))
    by_cases hstop : N ≤ idle + 1
    · rw [if_pos ⟨by omega, hstop⟩]
      have h1 : N - idle = 1 := by omega
      rw [h1, hq.2.1, hq.2.2.2]
      exact ⟨rfl, rfl⟩
    · rw [if_neg (fun hc => hstop hc.2)]
      have hrec := ih (run_cycle loop st).1 (idle + 1) N hq.2.2.1 hN
        (by omega) (by omega)
      constructor
      · rw [hrec.1, hq.2.1]
        omega
      · rw [hrec.2, hq.2.2.2]
        omega

/-- Claim C7: for every N > 0 and cycle budget of at least N, running the
loop with `stop_when_idle = N` over channels that yield no new messages and
a decision function that returns no task, from a fresh state (empty deferred
queue), terminates at exactly cycle N: exactly N cycles run and are
recorded, and the loop then stops. -/
theorem claim_C7 (loop : AutonomousLoop) (N max_cycles : Nat)
    (hget : ∀ th l, loop.get_new_messages th l = Except.ok [])
    (hread : ∀ th n, loop.read_thread th n = Except.ok [])
    (hthink : ∀ m s, loop.think_fn m s = none)
    (hN : 0 < N) (hmax : N ≤ max_cycles) :
    ((loop_run loop emptyLoopState max_cycles N).cycle_count = N) ∧
    ((loop_run loop emptyLoopState max_cycles N).history.length = N) := by
  have h := run_from_quiet loop hget hread hthink max_cycles emptyLoopState
    0 N rfl hN hN (by omega)
  unfold loop_run
  constructor
  · rw [h.1]
    show 0 + (N - 0) = N
    omega
  · rw [h.2]
    show 0 + (N - 0) = N
    omega

/-- Claim C7 (witness): with a budget of 5 cycles and idle-stop 2 over one
silent channel, the loop stops after exactly 2 cycles. -/
theorem claim_C7_witness :
    ((loop_run
      ⟨["th"], fun _ _ => Except.ok [], fun _ _ => Except.ok [],
        fun _ _ => none, fun _ => Except.ok none, fun _ => ""⟩
      emptyLoopState 5 2).cycle_count = 2) ∧
    ((loop_run
      ⟨["th"], fun _ _ => Except.ok [], fun _ _ => Except.ok [],
        fun _ _ => none, fun _ => Except.ok none, fun _ => ""⟩
      emptyLoopState 5 2).history.length = 2) :=
  claim_C7
    ⟨["th"], fun _ _ => Except.ok [], fun _ _ => Except.ok [],
      fun _ _ => none, fun _ => Except.ok none, fun _ => ""⟩
    2 5 (fun _ _ => rfl) (fun _ _ => rfl) (fun _ _ => rfl)
    (by decide) (by decide)

/-! ## Action failures are caught and recorded -/

theorem failed_msg_ne_empty (t e : String) : failed_msg t e ≠ "" := by
  intro h
  have hl := congrArg String.length h
  simp only [failed_msg, String.length_append] at hl
  have h8 : ("FAILED: " : String).length = 8 := rfl
  have h0 : ("" : String).length = 0 := rfl
  omega

theorem run_from_continue (loop : AutonomousLoop) (st : LoopState)
    (idle fuel swi : Nat)
    (hact : truthyS (run_cycle loop st).2.action_taken = true) :
    run_from loop st idle (fuel + 1) swi =
      run_from loop (run_cycle loop st).1 0 fuel swi := by
  show (if swi ≠ 0 ∧ swi ≤ (if truthyS (run_cycle loop st).2.action_taken
      then 0 else idle + 1) then (run_cycle loop st).1
    else run_from loop (run_cycle loop st).1
      (if truthyS (run_cycle loop st).2.action_taken then 0 else idle + 1)
      fuel swi) = run_from loop (run_cycle loop st).1 0 fuel swi
  rw [hact]
  simp only [if_true]
  rw [if_neg (by omega : ¬(swi ≠ 0 ∧ swi ≤ 0))]

/-- Claim C6: when the task selected by a cycle exists and the action
function raises on it, the failure is recorded in that cycle's record as
`FAILED: <task> (<error>)`, no PR reference is recorded, the exception does
not propagate out of the cycle (the record is appended to history as in any
other cycle), and the loop continues to the next cycle (the failing cycle
never triggers the idle stop, since a FAILED outcome counts as an action). -/
theorem claim_C6 (loop : AutonomousLoop) (st0 : LoopState) (t e : String)
    (ht : cycle_task loop st0 = some t) (htne : t ≠ "")
    (herr : loop.act_fn t = Except.error e) :
    ((run_cycle loop st0).2.action_taken = some (failed_msg t e)) ∧
    ((run_cycle loop st0).2.pr_url = none) ∧
    ((run_cycle loop st0).1.history = st0.history ++ [(run_cycle loop st0).2]) ∧
    (∀ fuel idle swi, run_from loop st0 idle (fuel + 1) swi =
      run_from loop (run_cycle loop st0).1 0 fuel swi) := by
  unfold cycle_task at ht
  dsimp only [] at ht
  have hacted :
      (match (select_task loop
          (check_new_messages loop
            { st0 with cycle_count := st0.cycle_count + 1 }).2
          (check_new_messages loop
            { st0 with cycle_count := st0.cycle_count + 1 }).1).1 with
        | some t =>
          if t ≠ "" then
            match loop.act_fn t with
            | Except.ok url => (url, some t)
            | Except.error e => (none, some (failed_msg t e))
          else ((none : Option String), (none : Option String))
        | none => ((none : Option String), (none : Option String))) =
      (none, some (failed_msg t e)) := by
    rw [ht]
    show (if t ≠ "" then
        match loop.act_fn t with
        | Except.ok url => (url, some t)
        | Except.error e => (none, some (failed_msg t e))
      else ((none : Option String), (none : Option String))) = _
    rw [if_pos htne, herr]
  have hA : (run_cycle loop st0).2.action_taken = some (failed_msg t e) := by
    unfold run_cycle
    dsimp only []
    rw [hacted]
  have hP : (run_cycle loop st0).2.pr_url = none := by
    unfold run_cycle
    dsimp only []
    rw [hacted]
  have hH : (run_cycle loop st0).1.history =
      st0.history ++ [(run_cycle loop st0).2] := by
    unfold run_cycle
    dsimp only []
    have hchk := check_new_messages_frame loop
      { st0 with cycle_count := st0.cycle_count + 1 }
    have hselh := select_task_frame loop
      (check_new_messages loop { st0 with cycle_count := st0.cycle_count + 1 }).2
      (check_new_messages loop { st0 with cycle_count := st0.cycle_count + 1 }).1
    rw [hselh.1, hchk.1]
  refine ⟨hA, hP, hH, ?_⟩
  intro fuel idle swi
  refine run_from_continue loop st0 idle fuel swi ?_
  rw [hA]
  show decide (failed_msg t e ≠ "") = true
  simp [failed_msg_ne_empty t e]

/-- Claim C6 (witness): a deferred task "do" whose action raises "boom" is
recorded as `FAILED: do (boom)` and the loop proceeds. -/
theorem claim_C6_witness :
    ((run_cycle
      ⟨[], fun _ _ => Except.ok [], fun _ _ => Except.ok [],
        fun _ _ => none, fun _ => Except.error "boom", fun _ => ""⟩
      { emptyLoopState with pending_tasks := ["do"] }).2.action_taken =
      some (failed_msg "do" "boom")) ∧
    ((run_cycle
      ⟨[], fun _ _ => Except.ok [], fun _ _ => Except.ok [],
        fun _ _ => none, fun _ => Except.error "boom", fun _ => ""⟩
      { emptyLoopState with pending_tasks := ["do"] }).2.pr_url = none) ∧
    ((run_cycle
      ⟨[], fun _ _ => Except.ok [], fun _ _ => Except.ok [],
        fun _ _ => none, fun _ => Except.error "boom", fun _ => ""⟩
      { emptyLoopState with pending_tasks := ["do"] }).1.history =
      ({ emptyLoopState with pending_tasks := ["do"] } : LoopState).history ++
        [(run_cycle
          ⟨[], fun _ _ => Except.ok [], fun _ _ => Except.ok [],
            fun _ _ => none, fun _ => Except.error "boom", fun _ => ""⟩
          { emptyLoopState with pending_tasks := ["do"] }).2]) ∧
    (∀ fuel idle swi, run_from
        ⟨[], fun _ _ => Except.ok [], fun _ _ => Except.ok [],
          fun _ _ => none, fun _ => Except.error "boom", fun _ => ""⟩
        { emptyLoopState with pending_tasks := ["do"] } idle (fuel + 1) swi =
      run_from
        ⟨[], fun _ _ => Except.ok [], fun _ _ => Except.ok [],
          fun _ _ => none, fun _ => Except.error "boom", fun _ => ""⟩
        (run_cycle
          ⟨[], fun _ _ => Except.ok [], fun _ _ => Except.ok [],
            fun _ _ => none, fun _ => Except.error "boom", fun _ => ""⟩
          { emptyLoopState with pending_tasks := ["do"] }).1 0 fuel swi) :=
  claim_C6
    ⟨[], fun _ _ => Except.ok [], fun _ _ => Except.ok [],
      fun _ _ => none, fun _ => Except.error "boom", fun _ => ""⟩
    { emptyLoopState with pending_tasks := ["do"] } "do" "boom"
    (by decide) (by decide) rfl

/-- Claim C9 (witness): "T1" depends on the never-created "T9". -/
theorem claim_C9_witness :
    is_blocked (create_task emptyCoordinator "t" [] ["T9"] none "").1 "T1" = true ∧
    (assign_task (create_task emptyCoordinator "t" [] ["T9"] none "").1
      (some "T1") none [] none "").2 = none ∧
    (dget (assign_task (create_task emptyCoordinator "t" [] ["T9"] none
      "").1 (some "T1") none [] none "").1.tasks "T1").map Task.status =
      some TaskStatus.BLOCKED ∧
    ∀ t' ∈ get_available_tasks (create_task emptyCoordinator "t" [] ["T9"]
      none "").1, t'.id ≠ "T1" :=
  claim_C9 (create_task emptyCoordinator "t" [] ["T9"] none "").1 "T1"
    ⟨"T1", "t", [], none, TaskStatus.PENDING, "", "", ["T9"], [], none, none⟩
    "T9" none [] none ""
    (by decide) (by decide) (by decide) (by decide)

/-- Claim C10 (witness): completing the already-completed "T1" a second time
bumps agent "a"'s counter from 1 to 2 and overwrites timestamp and result. -/
theorem claim_C10_witness :
    ((dget (complete_task (complete_task (assign_task (create_task
      ((register_agent emptyCoordinator "a" "r" none "").1) "d" [] [] none
      "").1 (some "T1") none [] none "").1 "T1" "r1" "t1") "T1" "r2"
      "t2").agents "a").map Agent.tasks_completed = some (1 + 1)) ∧
    ((dget (complete_task (complete_task (assign_task (create_task
      ((register_agent emptyCoordinator "a" "r" none "").1) "d" [] [] none
      "").1 (some "T1") none [] none "").1 "T1" "r1" "t1") "T1" "r2"
      "t2").agents "a").map Agent.current_task = some none) ∧
    ((dget (complete_task (complete_task (assign_task (create_task
      ((register_agent emptyCoordinator "a" "r" none "").1) "d" [] [] none
      "").1 (some "T1") none [] none "").1 "T1" "r1" "t1") "T1" "r2"
      "t2").tasks "T1").map Task.completed = some "t2") ∧
    ((dget (complete_task (complete_task (assign_task (create_task
      ((register_agent emptyCoordinator "a" "r" none "").1) "d" [] [] none
      "").1 (some "T1") none [] none "").1 "T1" "r1" "t1") "T1" "r2"
      "t2").tasks "T1").map Task.result = some (some "r2")) ∧
    ((dget (complete_task (complete_task (assign_task (create_task
      ((register_agent emptyCoordinator "a" "r" none "").1) "d" [] [] none
      "").1 (some "T1") none [] none "").1 "T1" "r1" "t1") "T1" "r2"
      "t2").tasks "T1").map Task.assigned_to = some (some "a")) :=
  claim_C10
    (complete_task (assign_task (create_task ((register_agent
      emptyCoordinator "a" "r" none "").1) "d" [] [] none "").1 (some "T1")
      none [] none "").1 "T1" "r1" "t1")
    "T1"
    ⟨"T1", "d", [], some "a", TaskStatus.COMPLETED, "", "t1", [], [], none,
      some "r1"⟩
    "a" ⟨"a", "r", [], none, 1, ""⟩ "r2" "t2"
    (by decide) (by decide) (by decide) (by decide) (by decide)

/-- Claim C2 (witness): concrete instance of the aggregation claim with one
rejecting criterion. -/
theorem claim_C2_witness :
    ((review [fun _ _ => (⟨"g", Verdict.REJECT, "r", 0⟩ : ReviewResult)] "x"
        (none : Option Unit)).overall_verdict = Verdict.REJECT ↔
      ∃ r ∈ (review [fun _ _ => (⟨"g", Verdict.REJECT, "r", 0⟩ : ReviewResult)]
        "x" (none : Option Unit)).results, r.verdict = Verdict.REJECT) ∧
    ((review [fun _ _ => (⟨"g", Verdict.REJECT, "r", 0⟩ : ReviewResult)] "x"
        (none : Option Unit)).overall_verdict = Verdict.REVISE ↔
      ((¬ ∃ r ∈ (review [fun _ _ => (⟨"g", Verdict.REJECT, "r", 0⟩ :
        ReviewResult)] "x" (none : Option Unit)).results,
          r.verdict = Verdict.REJECT) ∧
        ∃ r ∈ (review [fun _ _ => (⟨"g", Verdict.REJECT, "r", 0⟩ :
          ReviewResult)] "x" (none : Option Unit)).results,
          r.verdict = Verdict.REVISE)) ∧
    ((review [fun _ _ => (⟨"g", Verdict.REJECT, "r", 0⟩ : ReviewResult)] "x"
        (none : Option Unit)).overall_verdict = Verdict.ACCEPT ↔
      ((¬ ∃ r ∈ (review [fun _ _ => (⟨"g", Verdict.REJECT, "r", 0⟩ :
        ReviewResult)] "x" (none : Option Unit)).results,
          r.verdict = Verdict.REJECT) ∧
        ¬ ∃ r ∈ (review [fun _ _ => (⟨"g", Verdict.REJECT, "r", 0⟩ :
          ReviewResult)] "x" (none : Option Unit)).results,
          r.verdict = Verdict.REVISE)) ∧
    ((review [fun _ _ => (⟨"g", Verdict.REJECT, "r", 0⟩ : ReviewResult)] "x"
        (none : Option Unit)).overall_verdict =
      overall_of (((review [fun _ _ => (⟨"g", Verdict.REJECT, "r", 0⟩ :
        ReviewResult)] "x" (none : Option Unit)).results).filter
        (fun r => decide (r.verdict ≠ Verdict.ABSTAIN)))) :=
  claim_C2 [fun _ _ => (⟨"g", Verdict.REJECT, "r", 0⟩ : ReviewResult)] "x"
    (none : Option Unit)

end Toolkit
